import Mathlib

/-!
# Verification development for `jeffdoubleyou/chatbot`

A shallow embedding of the conversational-logic layer of the repository
(`bot/chatbot.go`, `server/api.go`, `cli/server/server.go`,
`client/client.go`) together with theorems about it.

Conventions of the embedding.

* A Go `string` is modelled as the list of its Unicode code points
  (`Str := List Char`); the strings handled here are well-formed UTF-8, for
  which the byte-level operations of package `strings` (with an ASCII or
  otherwise well-formed separator) agree with the code-point-level ones.
* A Go slice is modelled as a `List`; the `nil` slice is `[]` (the code only
  applies `len`, `range`, indexing and `append`, which do not tell them apart).
* Go `int` is the 64-bit signed integer; values are `Int` and the bounds are
  stated where they matter.
* Collaborators that live outside the repository (the xorm engine, the logic
  and storage adapters, the trainer, and the package `bot` of another module
  that `cli/server/server.go` imports) are parameters: records of state-passing
  functions over an abstract state. Calls made on them are logged as events.
-/

namespace Chatbot

/-- A Go string, as the list of its code points. -/
abbrev Str := List Char

/-! ## Package `strings` -/

/-- Worker of `strings.Split(s, sep)` for a non-empty `sep`: scans `s` from the left;
`skip` counts the characters of a matched separator still to be dropped, `cur` is
the field being collected (reversed). A match is taken at the leftmost position
and the scan resumes after it, as `genSplit` does with `strings.Index`. -/
def splitGo (sep : Str) : Str → Nat → Str → List Str
  | [], _, cur => [cur.reverse]
  | _ :: cs, skip + 1, cur => splitGo sep cs skip cur
  | c :: cs, 0, cur =>
    if sep.isPrefixOf (c :: cs) then cur.reverse :: splitGo sep cs (sep.length - 1) []
    else splitGo sep cs 0 (c :: cur)

/-- Go `strings.Split(s, sep)`: all fields of `s` separated by `sep`; with an
empty `sep` the string is exploded into its code points. -/
def Split (s sep : Str) : List Str :=
  if sep = [] then s.map (fun c => [c]) else splitGo sep s 0 []

/-- Go `strings.Contains`: does `substr` occur in `s`? -/
def Contains (s substr : Str) : Bool := s.tails.any (fun t => substr.isPrefixOf t)

/-- Go `strings.HasSuffix`. -/
def HasSuffix (s suffix : Str) : Bool := suffix.isSuffixOf s

/-- Go `unicode.IsSpace`: the code points with the White_Space property. -/
def isSpace (c : Char) : Bool :=
  let n := c.toNat
  (9 ≤ n && n ≤ 13) || n == 0x20 || n == 0x85 || n == 0xA0 || n == 0x1680 ||
  (0x2000 ≤ n && n ≤ 0x200A) || n == 0x2028 || n == 0x2029 || n == 0x202F ||
  n == 0x205F || n == 0x3000

/-- Go `strings.TrimSpace`: drops leading and trailing white space. -/
def TrimSpace (s : Str) : Str :=
  ((s.dropWhile isSpace).reverse.dropWhile isSpace).reverse

/-- The payload delimiter `"$$$$"`. -/
def delim : Str := ['$', '$', '$', '$']

/-! ## Package `strconv` and `%v` of an `int` -/

/-- Decimal digits of a natural number, most significant first, prepended to `acc`
(the loop of `strconv.formatBits` for base 10); `fuel` bounds the iterations. -/
def formatNatAux : Nat → Nat → Str → Str
  | 0, _, acc => acc
  | fuel + 1, n, acc =>
    if n < 10 then Nat.digitChar n :: acc
    else formatNatAux fuel (n / 10) (Nat.digitChar (n % 10) :: acc)

/-- Decimal representation of a natural number. -/
def formatNat (n : Nat) : Str := formatNatAux (n + 1) n []

/-- What `fmt.Sprintf("%v", n)` and `strconv.Itoa(n)` print for an `int`. -/
def formatInt (n : Int) : Str :=
  if n < 0 then '-' :: formatNat n.natAbs else formatNat n.natAbs

/-- Value of a string of decimal digits read after `acc`; `none` when a character
is not a digit. -/
def parseDigits : Str → Nat → Option Nat
  | [], acc => some acc
  | c :: cs, acc =>
    if '0'.toNat ≤ c.toNat ∧ c.toNat ≤ '9'.toNat then
      parseDigits cs (acc * 10 + (c.toNat - '0'.toNat))
    else none

/-- An optionally signed decimal numeral, as `strconv.ParseInt(s, 10, 0)` reads it:
`none` on a syntax error, otherwise the exact (unclamped) value. -/
def parseSigned : Str → Option Int
  | [] => none
  | c :: cs =>
    if c = '-' then
      if cs = [] then none else (parseDigits cs 0).map (fun v => - (v : Int))
    else if c = '+' then
      if cs = [] then none else (parseDigits cs 0).map (fun v => (v : Int))
    else (parseDigits (c :: cs) 0).map (fun v => (v : Int))

/-- The smallest Go `int`. -/
def minInt : Int := - 2 ^ 63

/-- The largest Go `int`. -/
def maxInt : Int := 2 ^ 63 - 1

/-- Go `strconv.Atoi`: the value and whether the error is nil. A syntax error
gives value 0; a numeral out of the range of `int` gives the nearest bound and
a range error. -/
def Atoi (s : Str) : Int × Bool :=
  match parseSigned s with
  | none => (0, false)
  | some v =>
    if v < minInt then (minInt, false)
    else if maxInt < v then (maxInt, false)
    else (v, true)

/-! ## Data model (`bot/chatbot.go`) -/

/-- A row of table `corpus` (`bot.Corpus`). Times are instants counted in some unit;
`Data` is the key/value content of `CorpusData`, values kept in their JSON text. -/
structure Corpus where
  Id : Int := 0
  Class : Str := []
  Project : Str := []
  Question : Str := []
  Answer : Str := []
  Principal : Str := []
  Reviser : Str := []
  AcceptCount : Int := 0
  RejectCount : Int := 0
  CreatTime : Nat := 0
  UpdateTime : Nat := 0
  Qtype : Int := 0
  Context : Str := []
  Contextual : Bool := false
  Data : List (Str × Str) := []
deriving DecidableEq, Repr

/-- A row of table `project` (`bot.Project`). -/
structure Project where
  Id : Int := 0
  Name : Str := []
  Config : Str := []
deriving DecidableEq, Repr

/-- The chatbot configuration (`bot.Config`). -/
structure Config where
  Driver : Str := []
  DataSource : Str := []
  Project : Str := []
  DirCorpus : Str := []
  StoreFile : Str := []
  PrintMemStats : Bool := false
deriving DecidableEq, Repr

/-- The constant `CORPUS_CORPUS`. -/
def CORPUS_CORPUS : Int := 1

/-- The constant `CORPUS_REQUIREMENT`. -/
def CORPUS_REQUIREMENT : Int := 2

/-- An answer of the logic adapter (`logic.Answer`): the payload and its confidence.
`F` stands for `float32`; the code only copies confidences. -/
structure Answer (F : Type) where
  Content : Str
  Confidence : F
deriving DecidableEq, Repr

/-! ## Collaborators and the log of calls made on them -/

/-- A call on a collaborator, with the arguments it received. -/
inductive Call where
  | canProcess (text : Str)
  | process (text : Str) (context : List Str)
  | train
  | trainWithCorpus (corpuses : List (Str × List (List Str)))
  | sync
  | buildIndex
  | remove (key : Str)
  | update (key : Str) (value : List (Str × Int))
  | engineGetCorpus (bean : Corpus)
  | engineInsertCorpus (bean : Corpus)
  | engineUpdateCorpus (bean : Corpus) (cond : Corpus)
  | engineDeleteCorpus (bean : Corpus)
  | engineFindCorpus (cond : Corpus)
  | engineFindCorpusById (limit start id : Int)
  | engineGetProject (bean : Project)
  | engineInsertProject (bean : Project)
  | engineFindCorpusWhere (limit start : Int) (project question : Option Str)
  | engineUpdateCorpusCols (id : Int) (cols : List Str) (bean : Corpus)
deriving DecidableEq, Repr

/-- The state of the collaborators together with the calls made so far, oldest first. -/
structure World (σ : Type) where
  st : σ
  log : List Call

/-- Performs the collaborator operation `op` and logs it as `c`. -/
def call {σ α : Type} (c : Call) (op : σ → α × σ) (w : World σ) : α × World σ :=
  ((op w.st).1, { st := (op w.st).2, log := w.log ++ [c] })

/-- What `engine.Insert` and `engine.Update` report and write back into the bean:
the affected row count, the error, the auto-increment id and the time stamp. -/
structure Written where
  affected : Int
  err : Option Str
  id : Int
  now : Nat
deriving DecidableEq, Repr

/-- The xorm engine, as far as the code uses it. `Get` yields the row found (which
xorm copies into the bean) and the error; `Find` the rows and the error.
`FindCorpusWhere limit start project question` is the session
`Limit(limit, start)` with the optional conditions `project = ?` and
`question like ?` (around the given text); `UpdateCorpusCols id cols bean` is
`Id(id).Cols(cols...).Update(bean)`. -/
structure Engine (σ : Type) where
  GetCorpus : Corpus → σ → (Option Corpus × Option Str) × σ
  InsertCorpus : Corpus → σ → Written × σ
  UpdateCorpus : Corpus → Corpus → σ → Written × σ
  DeleteCorpus : Corpus → σ → (Int × Option Str) × σ
  FindCorpus : Corpus → σ → (List Corpus × Option Str) × σ
  FindCorpusById : Int → Int → Int → σ → (List Corpus × Option Str) × σ
  GetProject : Project → σ → (Option Project × Option Str) × σ
  InsertProject : Project → σ → Written × σ
  FindCorpusWhere : Int → Int → Option Str → Option Str → σ → (List Corpus × Option Str) × σ
  UpdateCorpusCols : Int → List Str → Corpus → σ → Written × σ

/-- Interface `logic.LogicAdapter`. -/
structure LogicAdapter (σ F : Type) where
  CanProcess : Str → σ → Bool × σ
  Process : Str → List Str → σ → List (Answer F) × σ

/-- Interface `storage.StorageAdapter` (`bot/adapters/storage/storageadapter.go`). -/
structure StorageAdapter (σ : Type) where
  BuildIndex : σ → Unit × σ
  Count : σ → Int × σ
  Find : Str → List Str → σ → (List (Str × Int) × Bool) × σ
  Search : Str → List Str → σ → List Str × σ
  Remove : Str → σ → Unit × σ
  Sync : σ → Option Str × σ
  Update : Str → List (Str × Int) → σ → Unit × σ

/-- Interface `Trainer`; `δ` is the type of the training data. -/
structure Trainer (σ δ : Type) where
  Train : δ → σ → Option Str × σ
  TrainWithCorpus : List (Str × List (List Str)) → σ → Option Str × σ

/-- The struct `ChatBot`. -/
structure ChatBot (σ F δ : Type) where
  PrintMemStats : Bool
  LogicAdapter : LogicAdapter σ F
  StorageAdapter : StorageAdapter σ
  Trainer : Trainer σ δ
  Config : Config

/-- The struct `ChatBotFactory`: the registry of chatbots by project name (a Go map,
here an association list with at most one entry per name) and the configuration. -/
structure ChatBotFactory (σ F δ : Type) where
  chatBots : List (Str × ChatBot σ F δ)
  config : Config

/-! ## `bot/chatbot.go` -/

/-- Go `ChatBotFactory.GetChatBot`: the chatbot registered under `project`, if any
(`chatBot, ok := f.chatBots[project]`). -/
def ChatBotFactory.GetChatBot {σ F δ : Type} (f : ChatBotFactory σ F δ) (project : Str) :
    Option (ChatBot σ F δ) :=
  (f.chatBots.find? (fun e => e.1 = project)).map (fun e => e.2)

/-- Go `ChatBotFactory.AddChatBot`: registers `chatBot` unless the name is taken. -/
def ChatBotFactory.AddChatBot {σ F δ : Type} (f : ChatBotFactory σ F δ) (project : Str)
    (chatBot : ChatBot σ F δ) : ChatBotFactory σ F δ :=
  match f.GetChatBot project with
  | some _ => f
  | none => { f with chatBots := f.chatBots ++ [(project, chatBot)] }

/-- Go `ChatBotFactory.GetProject`: whether a project row with this name exists, and
the error of the lookup. -/
def GetProject {σ : Type} (eng : Engine σ) (name : Str) (w : World σ) :
    (Bool × Option Str) × World σ :=
  let project : Project := { Name := name }
  let r := call (.engineGetProject project) (eng.GetProject project) w
  match r.1.2 with
  | some err => ((false, some err), r.2)
  | none => ((r.1.1.isSome, none), r.2)

/-- Go `ChatBotFactory.AddProject`: the new project, or the error. `engine.Insert`
writes the auto-increment id into the bean; the code then overwrites `Id` with the
first result of `Insert`. -/
def AddProject {σ : Type} (eng : Engine σ) (name config : Str) (w : World σ) :
    Except Str Project × World σ :=
  let project : Project := { Name := name, Config := config }
  let g := GetProject eng name w
  if g.1.1 then
    (.error ("project with name '".toList ++ name ++ "' already exists".toList), g.2)
  else
    let r := call (.engineInsertProject project) (eng.InsertProject project) g.2
    match r.1.err with
    | some err => (.error err, r.2)
    | none => (.ok { project with Id := r.1.affected }, r.2)

/-- Go `ChatBotFactory.GetCorpusById`: the corpus row with this id, `none` (Go `nil`)
on an error or when the query does not yield exactly one row. -/
def GetCorpusById {σ : Type} (eng : Engine σ) (id : Int) (w : World σ) :
    Option Corpus × World σ :=
  let r := call (.engineFindCorpusById 1 0 id) (eng.FindCorpusById 1 0 id) w
  match r.1.2 with
  | some _ => (none, r.2)
  | none =>
    match r.1.1 with
    | [c] => (some c, r.2)
    | _ => (none, r.2)

/-- Go `NewChatBotFactory`: the factory with an empty registry. -/
def NewChatBotFactory {σ F δ : Type} (config : Config) : ChatBotFactory σ F δ :=
  { chatBots := [], config := config }

/-- Go `ChatBotFactory.ListCorpus`: the rows from `start` on, at most `limit`, of
the corpus's project when that is set, with a question like the corpus's when that
is set; an error is only logged. -/
def ListCorpus {σ : Type} (eng : Engine σ) (corpus : Corpus) (start limit : Int)
    (w : World σ) : List Corpus × World σ :=
  let project : Option Str := if corpus.Project ≠ [] then some corpus.Project else none
  let question : Option Str := if corpus.Question ≠ [] then some corpus.Question else none
  let r := call (.engineFindCorpusWhere limit start project question)
    (eng.FindCorpusWhere limit start project question) w
  (r.1.1, r.2)

/-- Addition of Go `int`s: the sum, wrapped around into the 64-bit range. -/
def addInt (a b : Int) : Int := (a + b - minInt) % 2 ^ 64 + minInt

/-- Go `ChatBotFactory.UpdateCorpusCounter`: adds one to the accept count (`isOk`) or
to the reject count of the row `id` and writes both columns; the error returned. -/
def UpdateCorpusCounter {σ : Type} (eng : Engine σ) (id : Int) (isOk : Bool) (w : World σ) :
    Option Str × World σ :=
  if id ≤ 0 then (some "编号<0不合法".toList, w)
  else
    let q : Corpus := { Id := id }
    let g := call (.engineGetCorpus q) (eng.GetCorpus q) w
    match g.1.1 with
    | some found =>
      let q1 : Corpus :=
        if isOk then { found with AcceptCount := addInt found.AcceptCount 1 }
        else { found with RejectCount := addInt found.RejectCount 1 }
      if id > 0 then
        let cols := ["reject_count".toList, "accept_count".toList]
        let u := call (.engineUpdateCorpusCols id cols q1) (eng.UpdateCorpusCols id cols q1) g.2
        (u.1.err, u.2)
      else (g.1.2, g.2)
    | none => (some "record not found".toList, g.2)

/-- Go `ChatBot.Train`: trains, then syncs the store; a training error is returned
without syncing. (The memory-statistics goroutine only prints.) -/
def ChatBot.Train {σ F δ : Type} (chatbot : ChatBot σ F δ) (data : δ) (w : World σ) :
    Option Str × World σ :=
  let t := call .train (chatbot.Trainer.Train data) w
  match t.1 with
  | some err => (some err, t.2)
  | none => call .sync chatbot.StorageAdapter.Sync t.2

/-- Membership in the character class of the regular expression with source
`[|｜\r\n]+` of `LoadCorpusFromDB`. -/
def isQuestionSep (c : Char) : Bool :=
  c = '|' || c = '｜' || c = '\r' || c = '\n'

/-- Worker of `exp.Split(s, -1)` for the expression above: the pieces of `s`
between maximal runs of separator characters. `cur` is the piece being collected
(reversed); `inRun` tells that the previous character belonged to a match. -/
def expSplitGo : Str → Str → Bool → List Str
  | [], cur, _ => [cur.reverse]
  | c :: cs, cur, inRun =>
    if isQuestionSep c then
      if inRun then expSplitGo cs [] true else cur.reverse :: expSplitGo cs [] true
    else expSplitGo cs (c :: cur) false

/-- Go `exp.Split(s, -1)` of package `regexp` for the expression of `LoadCorpusFromDB`:
a leading or trailing match leaves an empty first or last piece, and the empty
string gives one empty piece. -/
def expSplit (s : Str) : List Str := expSplitGo s [] false

/-- The key made of one piece of a row's question: `"?"` is appended unless the
piece ends with `"?"` or `"？"`. -/
def questionKey (question : Str) : Str :=
  if !HasSuffix question ['?'] && !HasSuffix question ['？'] then question ++ ['?']
  else question

/-- The payload `fmt.Sprintf("%s$$$$%s$$$$%v$$$$%s", question, row.Answer, row.Id,
row.Context)`. -/
def payload (question answer : Str) (id : Int) (context : Str) : Str :=
  question ++ delim ++ answer ++ delim ++ formatInt id ++ delim ++ context

/-- A question made of aliases and runs of separators: each alias of `pairs`
followed by its run, then the alias `last`. -/
def aliasQuestion : List (Str × Str) → Str → Str
  | [], last => last
  | (al, run) :: rest, last => al ++ (run ++ aliasQuestion rest last)

/-- The inner loop of `LoadCorpusFromDB`: the conversation of one row, a key and
its payload for each piece of the question that is not blank. -/
def rowCorpus (row : Corpus) : List Str → List Str
  | [] => []
  | question :: rest =>
    if TrimSpace question = [] then rowCorpus row rest
    else
      questionKey question ::
        payload (questionKey question) row.Answer row.Id row.Context :: rowCorpus row rest

/-- The outer loop of `LoadCorpusFromDB`: one conversation per row. -/
def loadRows (rows : List Corpus) : List (List Str) :=
  rows.map (fun row => rowCorpus row (expSplit row.Question))

/-- Go `ChatBot.LoadCorpusFromDB`: the conversations of the rows of the chatbot's
project with type `CORPUS_CORPUS`, under the project's name; or the error. -/
def ChatBot.LoadCorpusFromDB {σ F δ : Type} (eng : Engine σ) (chatbot : ChatBot σ F δ)
    (w : World σ) : Except Str (List (Str × List (List Str))) × World σ :=
  let query : Corpus := { Project := chatbot.Config.Project, Qtype := CORPUS_CORPUS }
  let r := call (.engineFindCorpus query) (eng.FindCorpus query) w
  match r.1.2 with
  | some err => (.error err, r.2)
  | none => (.ok [(chatbot.Config.Project, loadRows r.1.1)], r.2)

/-- Go `ChatBot.AddCorpusToDB`: inserts the corpus, or updates the row that `Get`
finds by id (when set) or by question and class. Yields the error and the corpus
as the call leaves it behind the pointer. -/
def ChatBot.AddCorpusToDB {σ : Type} (eng : Engine σ) (corpus : Corpus) (w : World σ) :
    (Option Str × Corpus) × World σ :=
  let q : Corpus :=
    if corpus.Id ≠ 0 then { Id := corpus.Id }
    else { Question := corpus.Question, Class := corpus.Class }
  let g := call (.engineGetCorpus q) (eng.GetCorpus q) w
  match g.1.1 with
  | none =>
    let r := call (.engineInsertCorpus corpus) (eng.InsertCorpus corpus) g.2
    ((r.1.err, { corpus with Id := r.1.id, CreatTime := r.1.now, UpdateTime := r.1.now }), r.2)
  | some found =>
    if found.Id > 0 then
      let corpus1 := { corpus with Id := found.Id }
      let cond : Corpus := { Id := found.Id }
      let r := call (.engineUpdateCorpus corpus1 cond) (eng.UpdateCorpus corpus1 cond) g.2
      ((r.1.err, { corpus1 with UpdateTime := r.1.now }), r.2)
    else ((none, corpus), g.2)

/-- The part of `RemoveCorpusFromDB` after the query bean `q` is set up: when `Get`
finds a row, its question is removed from the store, the row is deleted and the
error of `Get` is returned; otherwise nothing is done. -/
def removeFound {σ F δ : Type} (eng : Engine σ) (chatbot : ChatBot σ F δ) (q : Corpus)
    (w : World σ) : Option Str × World σ :=
  let g := call (.engineGetCorpus q) (eng.GetCorpus q) w
  match g.1.1 with
  | some found =>
    let w1 := (call (.remove found.Question) (chatbot.StorageAdapter.Remove found.Question) g.2).2
    let w2 := (call (.engineDeleteCorpus found) (eng.DeleteCorpus found) w1).2
    (g.1.2, w2)
  | none => (none, g.2)

/-- Go `ChatBot.RemoveCorpusFromDB`: looks the row up by id (when positive) or else by
question, which must then be set. -/
def ChatBot.RemoveCorpusFromDB {σ F δ : Type} (eng : Engine σ) (chatbot : ChatBot σ F δ)
    (corpus : Corpus) (w : World σ) : Option Str × World σ :=
  if corpus.Id > 0 then removeFound eng chatbot { Id := corpus.Id } w
  else if corpus.Question = [] then (some "id or question must be set value".toList, w)
  else removeFound eng chatbot { Question := corpus.Question } w

/-- Go `ChatBot.GetResponse`: the answers of the logic adapter when it can process
the text, otherwise `nil`. -/
def ChatBot.GetResponse {σ F δ : Type} (chatbot : ChatBot σ F δ) (text : Str)
    (context : List Str) (w : World σ) : List (Answer F) × World σ :=
  let c := call (.canProcess text) (chatbot.LogicAdapter.CanProcess text) w
  if c.1 then call (.process text context) (chatbot.LogicAdapter.Process text context) c.2
  else ([], c.2)

/-! ## `server/api.go` -/

namespace Server

/-- The struct `QA` of the REST server. -/
structure QA (F : Type) where
  Question : Str
  Answer : Str
  Score : F
  Context : Str
  Contextual : Bool
  Class : Str
  Data : List (Str × Str)
  ID : Int
deriving DecidableEq, Repr

/-- The struct `Response` of the REST server. -/
structure Response (F : Type) where
  Question : Str
  Results : List (QA F)
  Message : Str
deriving DecidableEq, Repr

/-- The value a handler marshals into the body of its reply. -/
inductive Body (F : Type) where
  | response (r : Response F)
  | project (p : Project)
  | error (message : Str)
deriving DecidableEq, Repr

/-- What a handler writes: the status code and the body. -/
structure HttpResponse (F : Type) where
  status : Nat
  body : Body F
deriving DecidableEq, Repr

/-- An incoming request: the path variables of the route (`mux.Vars`) and the
parsed form values. -/
structure Request where
  vars : List (Str × Str)
  form : List (Str × Str)
deriving DecidableEq, Repr

/-- Reading a Go `map[string]string` or `url.Values.Get`: the value under the key,
the empty string when the key is absent. -/
def valueOf (m : List (Str × Str)) (key : Str) : Str :=
  ((m.find? (fun e => e.1 = key)).map (fun e => e.2)).getD []

/-- Go `SendJson`: status 200 unless exactly one status code is given. -/
def SendJson {F : Type} (res : Body F) (statusCode : List Nat) : HttpResponse F :=
  { status := match statusCode with
      | [code] => code
      | _ => 200,
    body := res }

/-- Go `SendError`: status 500 unless exactly one status code is given. -/
def SendError {F : Type} (message : Str) (statusCode : List Nat) : HttpResponse F :=
  { status := match statusCode with
      | [code] => code
      | _ => 500,
    body := .error message }

/-- The loop of `getResponse` over the answers: an answer whose content has more
than two fields is looked up by the id in field 2 and appended to the results;
`none` when the lookup gives `nil`, which the loop body dereferences. -/
def results {σ F : Type} (eng : Engine σ) :
    List (Answer F) → List (QA F) → World σ → Option (List (QA F)) × World σ
  | [], acc, w => (some acc, w)
  | answer :: rest, acc, w =>
    match Split answer.Content delim with
    | c0 :: c1 :: c2 :: _ =>
      let id := (Atoi c2).1
      let g := GetCorpusById eng id w
      match g.1 with
      | none => (none, g.2)
      | some corpus =>
        let qa : QA F :=
          { Question := c0, Answer := c1, Score := answer.Confidence,
            Context := corpus.Context, Contextual := corpus.Contextual,
            Data := corpus.Data, Class := corpus.Class, ID := id }
        results eng rest (acc ++ [qa]) g.2
    | _ => results eng rest acc w

/-- The handler `getResponse` of route `GET /respond/{project}`: the reply
written, or `none` when the handler panics. -/
def getResponse {σ F δ : Type} (eng : Engine σ) (factory : ChatBotFactory σ F δ)
    (request : Request) (w : World σ) : Option (HttpResponse F) × World σ :=
  let project := valueOf request.vars "project".toList
  let query := valueOf request.form "q".toList
  let context := valueOf request.form "context".toList
  let response : Response F := { Question := query, Results := [], Message := [] }
  if query = [] then
    (some (SendJson (.response { response with Message := "No query was provided".toList }) []), w)
  else
    match factory.GetChatBot project with
    | none =>
      (some (SendJson
        (.response { response with Message := "Could not initialize project".toList }) []), w)
    | some bot =>
      let c := if context ≠ [] then [context] else []
      let answers := bot.GetResponse query c w
      let r := results eng answers.1 [] answers.2
      match r.1 with
      | none => (none, r.2)
      | some rs => (some (SendJson (.response { response with Results := rs }) []), r.2)

/-- The handler `addProject` of route `POST /project/`; `body` is the project the
request body decodes to, or the decoding error. -/
def addProject {σ F : Type} (eng : Engine σ) (body : Except Str Project) (w : World σ) :
    HttpResponse F × World σ :=
  match body with
  | .error err => (SendError ("Could not parse request: ".toList ++ err) [], w)
  | .ok project =>
    let a := AddProject eng project.Name project.Config w
    match a.1 with
    | .error err => (SendError err [], a.2)
    | .ok p => (SendJson (.project p) [], a.2)

/-- The path variables that the router of `main` hands to the handlers of the
routes `/corpus/{project}` and `/respond/{project}` for the path segment `project`. -/
def projectRouteVars (project : Str) : List (Str × Str) := [("project".toList, project)]

/-- The handler `listProjectCorpus` of route `GET /corpus/{project}`: the status and
the corpora sent. -/
def listProjectCorpus {σ : Type} (eng : Engine σ) (request : Request) (w : World σ) :
    (Nat × List Corpus) × World σ :=
  let project := valueOf request.vars "id".toList
  let c : Corpus := { Project := project }
  let start := (Atoi (valueOf request.form "start".toList)).1
  let limit0 := (Atoi (valueOf request.form "limit".toList)).1
  let limit := if limit0 = 0 then 100 else limit0
  let r := ListCorpus eng c start limit w
  ((200, r.1), r.2)

/-- The fields of the result that an answer gives rise to, when its content has
more than two fields: question, answer, id and score. -/
def surfaced {F : Type} (answer : Answer F) : Option (Str × Str × Int × F) :=
  match Split answer.Content delim with
  | c0 :: c1 :: c2 :: _ => some (c0, c1, (Atoi c2).1, answer.Confidence)
  | _ => none

/-- The question, answer, id and score of a result. -/
def QA.fields {F : Type} (qa : QA F) : Str × Str × Int × F :=
  (qa.Question, qa.Answer, qa.ID, qa.Score)

end Server

/-! ## `client/client.go` -/

namespace Client

/-- Go `ProjectService.AddProject` on top of `Client.Do`: `send` carries the request
with the JSON of the project to the server and brings the reply back, or fails.
A reply with a status other than 200 is an error, with the message found in the
body if there is one; the body of a 200 reply is decoded into the project sent,
leaving it as it is when the body is an object without any of its fields. -/
def AddProject {F : Type} (send : Project → Except Str (Server.HttpResponse F))
    (name config : Str) : Except Str Project :=
  let p : Project := { Name := name, Config := config }
  match send p with
  | .error err => .error err
  | .ok resp =>
    if resp.status ≠ 200 then
      let message : Str :=
        match resp.body with
        | .error m => m
        | .response r => r.Message
        | .project _ => []
      if message ≠ [] then .error message
      else .error ("request failed with code ".toList ++ formatNat resp.status ++
        " and the error message was empty".toList)
    else
      match resp.body with
      | .project q => .ok q
      | .error _ => .ok p
      | .response _ => .ok p

/-- The struct `Message` of the client. -/
structure Message where
  Code : Str := []
  Message : Str := []
  Error : Str := []
  Url : Str := []
deriving DecidableEq, Repr

/-- The dynamic type of the value `v` handed to `Client.Do` to receive a `Message`:
a `Message` by value, or a pointer to a `Message`. -/
inductive Dest where
  | message (m : Message)
  | messagePointer
deriving DecidableEq, Repr

/-- The decoding step of `Client.Do`, `json.NewDecoder(resp.Body).Decode(v)`, for a
body that is the JSON of a `Message`: the decoder rejects a `v` that is not a
pointer and fills the value behind a pointer. -/
def decodeInto (v : Dest) : Except Str Dest :=
  match v with
  | .message _ => .error "json: Unmarshal(non-pointer client.Message)".toList
  | .messagePointer => .ok .messagePointer

/-- Go `Client.Do` for a reply whose body is the JSON of a `Message`: `resp` is the
outcome of the HTTP exchange (the transport error, or the status and the body).
Yields the error returned, `none` for `nil`. After the decoding, the type switch
on `v` has the case `Message` (by value) and the default. -/
def Do (resp : Except Str (Nat × Message)) (v : Dest) : Option Str :=
  match resp with
  | .error err => some err
  | .ok (status, body) =>
    if status ≠ 200 then
      if body.Message ≠ [] then some body.Message
      else some ("request failed with code ".toList ++ formatNat status ++
        " and the error message was empty".toList)
    else
      match decodeInto v with
      | .error err => some err
      | .ok (.message m) =>
        if m.Message = "OK".toList then none else some ("error: ".toList ++ m.Error)
      | .ok .messagePointer => none

end Client

/-! ## `cli/server/server.go` -/

namespace Cli

/-- The struct `QA` of the command-line server. -/
structure QA (F : Type) where
  Question : Str
  Answer : Str
  Score : F
deriving DecidableEq, Repr

/-- The struct `JsonResult`; `Data` is `nil` (`none`) or a list of answers. -/
structure JsonResult (F : Type) where
  Code : Int := 0
  Msg : Str := []
  Data : Option (List (QA F)) := none
deriving DecidableEq, Repr

/-- What a handler does to its `gin.Context`: the `context.JSON` calls, in order,
and whether it ended in a panic. -/
structure Handled (F : Type) where
  writes : List (Nat × JsonResult F)
  panicked : Bool
deriving DecidableEq, Repr

/-- What the handlers of `cli/server/server.go` use of the package
`github.com/kevwan/chatbot/bot` that the file imports. The sources at hand do not
hold that package, so its parts are parameters: `β` is its type `ChatBot` and `γ`
its type `Corpus`, with the fields the handler reads; `GetChatBot` is
`factory.GetChatBot` (`none` for a `nil` chatbot); `AddCorpusToDB` is the method of
that name, given the receiver, the corpus behind the pointer and the world, and
yielding the error, the corpus as left behind the pointer and the world as left;
`Update` and `BuildIndex` are the methods of the chatbot's `StorageAdapter`. -/
structure Imported (σ β γ : Type) where
  Project : γ → Str
  Question : γ → Str
  Answer : γ → Str
  GetChatBot : Str → Option β
  AddCorpusToDB : Option β → γ → World σ → (Option Str × γ) × World σ
  Update : β → Str → List (Str × Int) → σ → Unit × σ
  BuildIndex : β → σ → Unit × σ

/-- The handler of `POST v1/add`; `corpus` is what `context.Bind` reads from the
request. When the project is unknown the handler reports it and carries on with
the `nil` chatbot, and reading the storage adapter of `nil` panics. -/
def add {σ β γ : Type} (F : Type) (imp : Imported σ β γ) (corpus : γ) (w : World σ) :
    Handled F × World σ :=
  let project := imp.Project corpus
  let chatbot := imp.GetChatBot project
  let writes : List (Nat × JsonResult F) :=
    match chatbot with
    | none => [(200, { Code := 404,
                       Msg := "project '".toList ++ project ++ "' not found".toList })]
    | some _ => []
  let a := imp.AddCorpusToDB chatbot corpus w
  match a.1.1 with
  | some err => ({ writes := writes ++ [(500, { Msg := err })], panicked := false }, a.2)
  | none =>
    match chatbot with
    | none => ({ writes := writes, panicked := true }, a.2)
    | some bot =>
      let answer : List (Str × Int) :=
        [(imp.Question a.1.2 ++ delim ++ imp.Answer a.1.2, 1)]
      let u := call (.update (imp.Question a.1.2) answer)
        (imp.Update bot (imp.Question a.1.2) answer) a.2
      let b := call .buildIndex (imp.BuildIndex bot) u.2
      ({ writes := writes ++ [(200, { Code := 0, Msg := "success".toList })],
         panicked := false }, b.2)

/-- The repository's own package `bot`, over the engine `eng` and the registry
`factory`, in the place of the imported package. -/
def ownBot {σ F δ : Type} (eng : Engine σ) (factory : ChatBotFactory σ F δ) :
    Imported σ (ChatBot σ F δ) Corpus where
  Project c := c.Project
  Question c := c.Question
  Answer c := c.Answer
  GetChatBot project := factory.GetChatBot project
  AddCorpusToDB _ c w := ChatBot.AddCorpusToDB eng c w
  Update bot := bot.StorageAdapter.Update
  BuildIndex bot := bot.StorageAdapter.BuildIndex

end Cli

/-! ## An in-memory instance of the collaborators

A small database and key/value store, on which the embedding can be run. The
engine follows xorm: a bean's non-zero fields are the conditions of `Get`, `Find`
and `Delete` and the columns written by `Update`; `question like ?` is the SQL
operator on the text between two `%`. -/

namespace Mem

/-- The tables, the store and a clock. -/
structure State where
  corpus : List Corpus := []
  project : List Project := []
  store : List (Str × List (Str × Int)) := []
  clock : Nat := 0
deriving DecidableEq, Repr

/-- Does `row` meet the conditions that xorm reads off the bean `b`? -/
def matchCorpus (b row : Corpus) : Bool :=
  (b.Id = 0 || b.Id = row.Id) && (b.Class = [] || b.Class = row.Class) &&
  (b.Project = [] || b.Project = row.Project) && (b.Question = [] || b.Question = row.Question) &&
  (b.Answer = [] || b.Answer = row.Answer) && (b.Principal = [] || b.Principal = row.Principal) &&
  (b.Reviser = [] || b.Reviser = row.Reviser) &&
  (b.AcceptCount = 0 || b.AcceptCount = row.AcceptCount) &&
  (b.RejectCount = 0 || b.RejectCount = row.RejectCount) &&
  (b.Qtype = 0 || b.Qtype = row.Qtype) && (b.Context = [] || b.Context = row.Context)

/-- The row after `Update` with bean `b`: non-zero fields of `b` replace the row's,
and so does the bean's `Data`, which is written whatever it holds. -/
def mergeCorpus (now : Nat) (b row : Corpus) : Corpus :=
  { Id := if b.Id = 0 then row.Id else b.Id,
    Class := if b.Class = [] then row.Class else b.Class,
    Project := if b.Project = [] then row.Project else b.Project,
    Question := if b.Question = [] then row.Question else b.Question,
    Answer := if b.Answer = [] then row.Answer else b.Answer,
    Principal := if b.Principal = [] then row.Principal else b.Principal,
    Reviser := if b.Reviser = [] then row.Reviser else b.Reviser,
    AcceptCount := if b.AcceptCount = 0 then row.AcceptCount else b.AcceptCount,
    RejectCount := if b.RejectCount = 0 then row.RejectCount else b.RejectCount,
    CreatTime := row.CreatTime,
    UpdateTime := now,
    Qtype := if b.Qtype = 0 then row.Qtype else b.Qtype,
    Context := if b.Context = [] then row.Context else b.Context,
    Contextual := row.Contextual,
    Data := b.Data }

/-- The rows that a session with `Limit(limit, start)` yields of `rows`: those from
`start` on, at most `limit` of them; a limit that is not positive is no limit. -/
def limited {α : Type} (limit start : Int) (rows : List α) : List α :=
  if limit > 0 then (rows.drop start.toNat).take limit.toNat else rows.drop start.toNat

/-- The SQL operator `text LIKE pattern`: in the pattern `%` stands for any run
of characters and `_` for any one character; letters match without regard to
case. -/
def like : Str → Str → Bool
  | [], text => text.isEmpty
  | x :: pattern, text =>
    if x = '%' then text.tails.any (fun rest => like pattern rest)
    else
      match text with
      | [] => false
      | c :: rest => (x = '_' || x.toLower = c.toLower) && like pattern rest

/-- The next auto-increment id of a table with these ids. -/
def nextId (ids : List Int) : Int := ids.foldl max 0 + 1

/-- Does `row` meet the conditions of the project bean `b`? -/
def matchProject (b row : Project) : Bool :=
  (b.Id = 0 || b.Id = row.Id) && (b.Name = [] || b.Name = row.Name) &&
  (b.Config = [] || b.Config = row.Config)

/-- The engine over the in-memory tables; it never fails. -/
def engine : Engine State where
  GetCorpus b m := ((m.corpus.find? (matchCorpus b), none), m)
  InsertCorpus b m :=
    let id := if b.Id = 0 then nextId (m.corpus.map (fun r => r.Id)) else b.Id
    ({ affected := 1, err := none, id := id, now := m.clock },
     { m with corpus := m.corpus ++ [{ b with Id := id, CreatTime := m.clock, UpdateTime := m.clock }],
              clock := m.clock + 1 })
  UpdateCorpus b cond m :=
    ({ affected := ((m.corpus.filter (matchCorpus cond)).length : Int), err := none, id := b.Id,
       now := m.clock },
     { m with corpus := m.corpus.map (fun r => if matchCorpus cond r then mergeCorpus m.clock b r else r),
              clock := m.clock + 1 })
  DeleteCorpus b m :=
    ((((m.corpus.filter (matchCorpus b)).length : Int), none),
     { m with corpus := m.corpus.filter (fun r => !matchCorpus b r) })
  FindCorpus cond m := ((m.corpus.filter (matchCorpus cond), none), m)
  FindCorpusById limit start id m :=
    ((limited limit start (m.corpus.filter (fun r => r.Id = id)), none), m)
  GetProject b m := ((m.project.find? (matchProject b), none), m)
  InsertProject b m :=
    let id := if b.Id = 0 then nextId (m.project.map (fun r => r.Id)) else b.Id
    ({ affected := 1, err := none, id := id, now := m.clock },
     { m with project := m.project ++ [{ b with Id := id }], clock := m.clock + 1 })
  FindCorpusWhere limit start project question m :=
    ((limited limit start (m.corpus.filter (fun r =>
        (match project with
         | some p => decide (r.Project = p)
         | none => true) &&
        (match question with
         | some q => like (['%'] ++ q ++ ['%']) r.Question
         | none => true))), none), m)
  UpdateCorpusCols id cols b m :=
    ({ affected := ((m.corpus.filter (fun r => r.Id = id)).length : Int), err := none, id := id,
       now := m.clock },
     { m with corpus := m.corpus.map (fun r =>
                if r.Id = id then
                  { r with
                    AcceptCount :=
                      if "accept_count".toList ∈ cols then b.AcceptCount else r.AcceptCount,
                    RejectCount :=
                      if "reject_count".toList ∈ cols then b.RejectCount else r.RejectCount,
                    UpdateTime := m.clock }
                else r),
              clock := m.clock + 1 })

/-- The engine whose writes all fail with the error `"database is locked"`. -/
def lockedEngine : Engine State :=
  { engine with
    InsertCorpus := fun _ m =>
      ({ affected := 0, err := some "database is locked".toList, id := 0, now := m.clock }, m),
    UpdateCorpus := fun _ _ m =>
      ({ affected := 0, err := some "database is locked".toList, id := 0, now := m.clock }, m),
    DeleteCorpus := fun _ m => ((0, some "database is locked".toList), m),
    InsertProject := fun _ m =>
      ({ affected := 0, err := some "database is locked".toList, id := 0, now := m.clock }, m) }

/-- The store as a storage adapter: `Update` sets the value of a key, `Remove`
drops the key, `Search` knows exact matches only. -/
def storage : StorageAdapter State where
  BuildIndex m := ((), m)
  Count m := ((m.store.length : Int), m)
  Find key _ m :=
    (match m.store.find? (fun e => e.1 = key) with
     | some e => (e.2, true)
     | none => ([], false), m)
  Search key _ m := ((m.store.filter (fun e => e.1 = key)).map (fun e => e.1), m)
  Remove key m := ((), { m with store := m.store.filter (fun e => e.1 ≠ key) })
  Sync m := (none, m)
  Update key value m :=
    ((), { m with store := m.store.filter (fun e => e.1 ≠ key) ++ [(key, value)] })

/-- A logic adapter that processes every text but the empty one and gives the same
answers each time. -/
def logic {F : Type} (answers : List (Answer F)) : LogicAdapter State F where
  CanProcess text m := (decide (text ≠ []), m)
  Process _ _ m := (answers, m)

/-- The store entries of one conversation: each key with its payload. -/
def entries : List Str → List (Str × List (Str × Int))
  | key :: content :: rest => (key, [(content, 1)]) :: entries rest
  | _ => []

/-- A trainer that puts every key of the conversations into the store with its
payload; other data is a flag telling whether it is fit for training. -/
def trainer : Trainer State Bool where
  Train fit m := (if fit then none else some "unsupported data".toList, m)
  TrainWithCorpus corpuses m :=
    (none, { m with store := m.store ++
      (corpuses.map (fun e => (e.2.map entries).flatten)).flatten })

/-- A chatbot over the in-memory collaborators. -/
def chatbot {F : Type} (project : Str) (answers : List (Answer F)) : ChatBot State F Bool where
  PrintMemStats := false
  LogicAdapter := logic answers
  StorageAdapter := storage
  Trainer := trainer
  Config := { Project := project }

end Mem

/-! # Theorems -/

/-! ## Splitting and the payload -/

theorem contains_of_prefix_suffix (sub q1 q2 : Str) (h : sub <+: q2) :
    Contains (q1 ++ q2) sub = true := by
  unfold Contains
  rw [List.any_eq_true]
  exact ⟨q2, (List.mem_tails _ _).2 (List.suffix_append q1 q2), List.isPrefixOf_iff_prefix.2 h⟩

theorem splitGo_skip (sep : Str) (xs rest cur : Str) :
    splitGo sep (xs ++ rest) xs.length cur = splitGo sep rest 0 cur := by
  induction xs with
  | nil => rfl
  | cons x xs ih => simpa [splitGo] using ih

theorem splitGo_field (sep : Str) (hsep : sep ≠ []) (rest : Str) :
    ∀ (q cur : Str),
      (∀ q1 q2, q = q1 ++ q2 → q2 ≠ [] → ¬ sep <+: q2 ++ (sep ++ rest)) →
      splitGo sep (q ++ (sep ++ rest)) 0 cur = (cur.reverse ++ q) :: splitGo sep rest 0 [] := by
  intro q
  induction q with
  | nil =>
    intro cur _
    obtain ⟨c, sep1, rfl⟩ := List.exists_cons_of_ne_nil hsep
    have hp : (c :: sep1).isPrefixOf (c :: (sep1 ++ rest)) = true :=
      List.isPrefixOf_iff_prefix.2 (List.prefix_append (c :: sep1) rest)
    have hs := splitGo_skip (c :: sep1) sep1 rest []
    show splitGo (c :: sep1) (c :: (sep1 ++ rest)) 0 cur = _
    rw [splitGo, if_pos hp]
    simp only [List.length_cons, Nat.add_sub_cancel, List.nil_append]
    rw [hs, List.append_nil]
  | cons x q ih =>
    intro cur h
    have hnp : sep.isPrefixOf (x :: (q ++ (sep ++ rest))) = false := by
      cases hb : sep.isPrefixOf (x :: (q ++ (sep ++ rest))) with
      | false => rfl
      | true => exact absurd (List.isPrefixOf_iff_prefix.1 hb) (h [] (x :: q) rfl (by simp))
    have ih1 := ih (x :: cur) (fun q1 q2 hq hne => h (x :: q1) q2 (by simp [hq]) hne)
    show splitGo sep (x :: (q ++ (sep ++ rest))) 0 cur = _
    rw [splitGo, hnp]
    simpa using ih1

theorem splitGo_last (sep : Str) :
    ∀ (c cur : Str), (∀ c1 c2, c = c1 ++ c2 → ¬ sep <+: c2) →
      splitGo sep c 0 cur = [cur.reverse ++ c] := by
  intro c
  induction c with
  | nil => intro cur _; simp [splitGo]
  | cons x c ih =>
    intro cur h
    have hnp : sep.isPrefixOf (x :: c) = false := by
      cases hb : sep.isPrefixOf (x :: c) with
      | false => rfl
      | true => exact absurd (List.isPrefixOf_iff_prefix.1 hb) (h [] (x :: c) rfl)
    have ih1 := ih (x :: cur) (fun c1 c2 hc => h (x :: c1) c2 (by simp [hc]))
    rw [splitGo, hnp]
    simpa using ih1

theorem delim_not_early (q rest : Str) (hq : Contains q delim = false)
    (hlast : q.getLast? ≠ some '$') :
    ∀ q1 q2, q = q1 ++ q2 → q2 ≠ [] → ¬ delim <+: q2 ++ (delim ++ rest) := by
  intro q1 q2 hsplit hne hpre
  subst hsplit
  have hl : (q1 ++ q2).getLast? = q2.getLast? := by
    rw [List.getLast?_append_of_ne_nil _ hne]
  rw [hl] at hlast
  match q2, hne, hpre, hq, hlast with
  | [a], _, hpre, _, hlast =>
    simp [delim, List.cons_prefix_cons] at hpre
    simp at hlast
    exact hlast hpre.symm
  | [a, b], _, hpre, _, hlast =>
    simp [delim, List.cons_prefix_cons] at hpre
    simp at hlast
    exact hlast hpre.2.symm
  | [a, b, c], _, hpre, _, hlast =>
    simp [delim, List.cons_prefix_cons] at hpre
    simp at hlast
    exact hlast hpre.2.2.symm
  | a :: b :: c :: d :: t, _, hpre, hq, _ =>
    have h4 : delim <+: a :: b :: c :: d :: t := by
      simp [delim, List.cons_prefix_cons] at hpre ⊢
      exact hpre
    rw [contains_of_prefix_suffix delim q1 _ h4] at hq
    exact Bool.noConfusion hq

theorem delim_not_in_last (c : Str) (hc : Contains c delim = false) :
    ∀ c1 c2, c = c1 ++ c2 → ¬ delim <+: c2 := by
  intro c1 c2 hsplit hpre
  subst hsplit
  rw [contains_of_prefix_suffix delim c1 c2 hpre] at hc
  exact Bool.noConfusion hc

theorem dollar_free_ok (s : Str) (h : '$' ∉ s) :
    Contains s delim = false ∧ s.getLast? ≠ some '$' := by
  constructor
  · cases hb : Contains s delim with
    | false => rfl
    | true =>
      exfalso
      unfold Contains at hb
      rw [List.any_eq_true] at hb
      obtain ⟨t, ht, hp⟩ := hb
      have hsuf : t <:+ s := (List.mem_tails _ _).1 ht
      have hpre : delim <+: t := List.isPrefixOf_iff_prefix.1 hp
      exact h (hsuf.subset (hpre.subset (by simp [delim])))
  · intro hl
    exact h (List.mem_of_getLast?_eq_some hl)

/-! ## Decimal numerals -/

theorem digitChar_toNat (d : Nat) (h : d < 10) : (Nat.digitChar d).toNat = 48 + d := by
  interval_cases d <;> rfl

theorem digitChar_ne (d : Nat) (h : d < 10) :
    Nat.digitChar d ≠ '$' ∧ Nat.digitChar d ≠ '-' ∧ Nat.digitChar d ≠ '+' := by
  interval_cases d <;> decide

theorem parseDigits_digit (d : Nat) (h : d < 10) (cs : Str) (acc : Nat) :
    parseDigits (Nat.digitChar d :: cs) acc = parseDigits cs (acc * 10 + d) := by
  have ht := digitChar_toNat d h
  have h0 : '0'.toNat = 48 := rfl
  have h9 : '9'.toNat = 57 := rfl
  rw [parseDigits, ht, h0, h9, if_pos ⟨by omega, by omega⟩]
  congr 1
  omega

theorem parseDigits_formatNatAux :
    ∀ (fuel n : Nat) (acc : Str), n < fuel →
      parseDigits (formatNatAux fuel n acc) 0 = parseDigits acc n := by
  intro fuel
  induction fuel with
  | zero => intro n acc h; omega
  | succ fuel ih =>
    intro n acc h
    rw [formatNatAux]
    split
    · rename_i hlt
      rw [parseDigits_digit n hlt]
      simp
    · rename_i hge
      rw [ih (n / 10) _ (by omega), parseDigits_digit (n % 10) (Nat.mod_lt _ (by decide))]
      congr 1
      omega

theorem parseDigits_formatNat (n : Nat) : parseDigits (formatNat n) 0 = some n := by
  unfold formatNat
  rw [parseDigits_formatNatAux (n + 1) n [] (by omega)]
  rfl

theorem formatNatAux_head :
    ∀ (fuel n : Nat) (acc : Str), n < fuel →
      ∃ d t, d < 10 ∧ formatNatAux fuel n acc = Nat.digitChar d :: t := by
  intro fuel
  induction fuel with
  | zero => intro n acc h; omega
  | succ fuel ih =>
    intro n acc h
    rw [formatNatAux]
    split
    · rename_i hlt
      exact ⟨n, acc, hlt, rfl⟩
    · exact ih (n / 10) _ (by omega)

theorem formatNatAux_mem :
    ∀ (fuel n : Nat) (acc : Str) (c : Char), c ∈ formatNatAux fuel n acc →
      c ∈ acc ∨ ∃ d, d < 10 ∧ c = Nat.digitChar d := by
  intro fuel
  induction fuel with
  | zero => intro n acc c h; exact Or.inl h
  | succ fuel ih =>
    intro n acc c h
    rw [formatNatAux] at h
    split at h
    · rename_i hlt
      rcases List.mem_cons.1 h with h1 | h1
      · exact Or.inr ⟨n, hlt, h1⟩
      · exact Or.inl h1
    · rcases ih (n / 10) _ c h with h1 | h1
      · rcases List.mem_cons.1 h1 with h2 | h2
        · exact Or.inr ⟨n % 10, Nat.mod_lt _ (by decide), h2⟩
        · exact Or.inl h2
      · exact Or.inr h1

theorem dollar_not_mem_formatInt (n : Int) : '$' ∉ formatInt n := by
  have hnat : ∀ m : Nat, '$' ∉ formatNat m := by
    intro m hm
    rcases formatNatAux_mem _ _ _ _ hm with h | ⟨d, hd, h⟩
    · simp at h
    · exact (digitChar_ne d hd).1 h.symm
  unfold formatInt
  split
  · intro h
    rcases List.mem_cons.1 h with h1 | h1
    · exact absurd h1 (by decide)
    · exact hnat _ h1
  · exact hnat _

theorem parseSigned_formatNat (m : Nat) : parseSigned (formatNat m) = some (m : Int) := by
  obtain ⟨d, t, hd, ht⟩ := formatNatAux_head (m + 1) m [] (by omega)
  have hp := parseDigits_formatNat m
  unfold formatNat at hp ⊢
  rw [ht] at hp ⊢
  rw [parseSigned, if_neg (digitChar_ne d hd).2.1, if_neg (digitChar_ne d hd).2.2, hp]
  rfl

theorem Atoi_formatInt (n : Int) (hmin : minInt ≤ n) (hmax : n ≤ maxInt) :
    Atoi (formatInt n) = (n, true) := by
  have hv : parseSigned (formatInt n) = some n := by
    unfold formatInt
    split
    · rename_i hneg
      obtain ⟨d, t, _, ht⟩ := formatNatAux_head (n.natAbs + 1) n.natAbs [] (by omega)
      have hne : formatNat n.natAbs ≠ [] := by
        unfold formatNat
        rw [ht]
        exact List.cons_ne_nil _ _
      rw [parseSigned, if_pos rfl, if_neg hne, parseDigits_formatNat]
      show some (-(n.natAbs : Int)) = some n
      congr 1
      omega
    · rename_i hpos
      rw [parseSigned_formatNat]
      congr 1
      omega
  unfold Atoi
  rw [hv]
  simp only
  rw [if_neg (by omega), if_neg (by omega)]

/-! ## C1: the payload round trip -/

/-- C1 as stated fails: with the answer `"5$"`, which does not contain the delimiter,
the payload of key `"x?"`, row id 1 and empty context splits into the fields
`"x?"`, `"5"`, `"$1"`, `""`: the leftmost match of `"$$$$"` starts at the answer's
last character, so the answer loses its `$` and the id field is no numeral. -/
theorem payload_split_counterexample :
    Contains "x?".toList delim = false ∧ Contains "5$".toList delim = false ∧
    Contains [] delim = false ∧
    Split (payload "x?".toList "5$".toList 1 []) delim
      = ["x?".toList, "5".toList, "$1".toList, []] ∧
    Split (payload "x?".toList "5$".toList 1 []) delim
      ≠ ["x?".toList, "5$".toList, formatInt 1, []] ∧
    Atoi "$1".toList = (0, false) := by
  decide

/-- C1, amended: when none of `q`, `a`, `c` contains `"$$$$"` and neither `q` nor `a`
ends with `$`, splitting the payload `q + "$$$$" + a + "$$$$" + decimal(n) + "$$$$" + c`
on `"$$$$"` gives exactly `[q, a, decimal(n), c]`, and `Atoi` reads the row id `n`
(a Go `int`) back from the third field without error. -/
theorem payload_split_fields (q a c : Str) (n : Int)
    (hq : Contains q delim = false) (ha : Contains a delim = false)
    (hc : Contains c delim = false)
    (hqlast : q.getLast? ≠ some '$') (halast : a.getLast? ≠ some '$')
    (hmin : minInt ≤ n) (hmax : n ≤ maxInt) :
    Split (payload q a n c) delim = [q, a, formatInt n, c] ∧
    Atoi (formatInt n) = (n, true) := by
  refine ⟨?_, Atoi_formatInt n hmin hmax⟩
  have hd : delim ≠ [] := by decide
  have hn := dollar_free_ok (formatInt n) (dollar_not_mem_formatInt n)
  have e : payload q a n c
      = q ++ (delim ++ (a ++ (delim ++ (formatInt n ++ (delim ++ c))))) := by
    simp [payload, List.append_assoc]
  unfold Split
  rw [if_neg hd, e,
    splitGo_field delim hd _ q [] (delim_not_early q _ hq hqlast),
    splitGo_field delim hd _ a [] (delim_not_early a _ ha halast),
    splitGo_field delim hd _ (formatInt n) [] (delim_not_early _ _ hn.1 hn.2),
    splitGo_last delim c [] (delim_not_in_last c hc)]
  simp

/-- The payload of key `"hi?"`, answer `"hello"`, row 7 and context `"greet"` splits
into its four fields. -/
theorem payload_split_fields_witness :
    Split (payload "hi?".toList "hello".toList 7 "greet".toList) delim
      = ["hi?".toList, "hello".toList, formatInt 7, "greet".toList] ∧
    Atoi (formatInt 7) = (7, true) :=
  payload_split_fields "hi?".toList "hello".toList "greet".toList 7
    (by decide) (by decide) (by decide) (by decide) (by decide) (by decide) (by decide)

/-! ## C2: `ChatBot.GetResponse` -/

/-- C2: when the logic adapter can process the text, `ChatBot.GetResponse` returns
exactly what `Process` returns, called once with the text and the context tags as
given; when it cannot, `GetResponse` returns `nil` and `Process` is not called. -/
theorem GetResponse_forwards {σ F δ : Type} (chatbot : ChatBot σ F δ) (text : Str)
    (context : List Str) (w : World σ) :
    ((chatbot.LogicAdapter.CanProcess text w.st).1 = true →
      (chatbot.GetResponse text context w).1
        = (chatbot.LogicAdapter.Process text context
            (chatbot.LogicAdapter.CanProcess text w.st).2).1 ∧
      (chatbot.GetResponse text context w).2.log
        = w.log ++ [.canProcess text, .process text context]) ∧
    ((chatbot.LogicAdapter.CanProcess text w.st).1 = false →
      (chatbot.GetResponse text context w).1 = [] ∧
      (chatbot.GetResponse text context w).2.log = w.log ++ [.canProcess text] ∧
      ∀ t c, Call.process t c ∈ (chatbot.GetResponse text context w).2.log →
        Call.process t c ∈ w.log) := by
  constructor
  · intro h
    simp [ChatBot.GetResponse, call, h]
  · intro h
    simp [ChatBot.GetResponse, call, h]

/-- The in-memory chatbot answers `"hi"` under the tag `"greet"` with its answers,
and the logic adapter sees the text and the tag. -/
theorem GetResponse_forwards_witness :
    ((Mem.chatbot "IT".toList [({ Content := "a".toList, Confidence := 1 } : Answer Nat)]).GetResponse
        "hi".toList ["greet".toList] { st := {}, log := [] }).1
      = [{ Content := "a".toList, Confidence := 1 }] ∧
    ((Mem.chatbot "IT".toList [({ Content := "a".toList, Confidence := 1 } : Answer Nat)]).GetResponse
        "hi".toList ["greet".toList] { st := {}, log := [] }).2.log
      = [.canProcess "hi".toList, .process "hi".toList ["greet".toList]] :=
  (GetResponse_forwards (Mem.chatbot "IT".toList [{ Content := "a".toList, Confidence := 1 }])
    "hi".toList ["greet".toList] { st := {}, log := [] }).1 (by decide)

/-! ## C6: `ChatBot.Train` -/

/-- C6: when `Trainer.Train` fails, `ChatBot.Train` returns that error and `Sync` is
not called; when it succeeds, `Sync` is called once, after the training, and
`Train` returns what `Sync` returns. -/
theorem Train_surfaces_errors {σ F δ : Type} (chatbot : ChatBot σ F δ) (data : δ)
    (w : World σ) :
    (∀ err, (chatbot.Trainer.Train data w.st).1 = some err →
      (chatbot.Train data w).1 = some err ∧
      (chatbot.Train data w).2.log = w.log ++ [.train] ∧
      (chatbot.Train data w).2.st = (chatbot.Trainer.Train data w.st).2) ∧
    ((chatbot.Trainer.Train data w.st).1 = none →
      (chatbot.Train data w).1
        = (chatbot.StorageAdapter.Sync (chatbot.Trainer.Train data w.st).2).1 ∧
      (chatbot.Train data w).2.log = w.log ++ [.train, .sync] ∧
      (chatbot.Train data w).2.st
        = (chatbot.StorageAdapter.Sync (chatbot.Trainer.Train data w.st).2).2) := by
  constructor
  · intro err h
    simp [ChatBot.Train, call, h]
  · intro h
    simp [ChatBot.Train, call, h]

/-- Training the in-memory chatbot on unfit data fails without a sync; on fit data
it succeeds and syncs once. -/
theorem Train_surfaces_errors_witness :
    (((Mem.chatbot "IT".toList ([] : List (Answer Nat))).Train false { st := {}, log := [] }).1
        = some "unsupported data".toList ∧
      ((Mem.chatbot "IT".toList ([] : List (Answer Nat))).Train false { st := {}, log := [] }).2.log
        = [.train]) ∧
    (((Mem.chatbot "IT".toList ([] : List (Answer Nat))).Train true { st := {}, log := [] }).1
        = none ∧
      ((Mem.chatbot "IT".toList ([] : List (Answer Nat))).Train true { st := {}, log := [] }).2.log
        = [.train, .sync]) :=
  ⟨⟨((Train_surfaces_errors (Mem.chatbot "IT".toList ([] : List (Answer Nat))) false
        { st := {}, log := [] }).1 _ rfl).1,
    ((Train_surfaces_errors (Mem.chatbot "IT".toList ([] : List (Answer Nat))) false
        { st := {}, log := [] }).1 _ rfl).2.1⟩,
   ⟨((Train_surfaces_errors (Mem.chatbot "IT".toList ([] : List (Answer Nat))) true
        { st := {}, log := [] }).2 rfl).1,
    ((Train_surfaces_errors (Mem.chatbot "IT".toList ([] : List (Answer Nat))) true
        { st := {}, log := [] }).2 rfl).2.1⟩⟩

/-! ## The handler `getResponse` -/

theorem GetCorpusById_log {σ : Type} (eng : Engine σ) (id : Int) (w : World σ) :
    (GetCorpusById eng id w).2.log = w.log ++ [Call.engineFindCorpusById 1 0 id] := by
  unfold GetCorpusById
  simp only
  split
  · rfl
  · split <;> rfl

theorem results_log {σ F : Type} (eng : Engine σ) :
    ∀ (answers : List (Answer F)) (acc : List (Server.QA F)) (w : World σ),
      ∃ ids : List Int, (Server.results eng answers acc w).2.log
        = w.log ++ ids.map (fun id => Call.engineFindCorpusById 1 0 id) := by
  intro answers
  induction answers with
  | nil => intro acc w; exact ⟨[], by simp [Server.results]⟩
  | cons answer rest ih =>
    intro acc w
    rw [Server.results]
    split
    · rename_i c0 c1 c2 t hsplit
      simp only
      split
      · exact ⟨[(Atoi c2).1], by simp [GetCorpusById_log]⟩
      · rename_i corpus hg
        obtain ⟨ids, hids⟩ := ih (acc ++ [⟨c0, c1, answer.Confidence, corpus.Context,
            corpus.Contextual, corpus.Class, corpus.Data, (Atoi c2).1⟩])
          (GetCorpusById eng (Atoi c2).1 w).2
        refine ⟨(Atoi c2).1 :: ids, ?_⟩
        rw [hids, GetCorpusById_log]
        simp
    · exact ih acc w

theorem results_fields {σ F : Type} (eng : Engine σ) :
    ∀ (answers : List (Answer F)) (acc rs : List (Server.QA F)) (w w1 : World σ),
      Server.results eng answers acc w = (some rs, w1) →
      rs.map Server.QA.fields = acc.map Server.QA.fields ++ answers.filterMap Server.surfaced := by
  intro answers
  induction answers with
  | nil =>
    intro acc rs w w1 h
    simp [Server.results] at h
    simp [h.1]
  | cons answer rest ih =>
    intro acc rs w w1 h
    rw [Server.results] at h
    split at h
    · rename_i c0 c1 c2 t hsplit
      simp only at h
      split at h
      · simp at h
      · rename_i corpus hg
        have h1 := ih _ rs _ w1 h
        rw [h1]
        simp [Server.surfaced, hsplit, Server.QA.fields]
    · rename_i hno
      have h1 := ih acc rs w w1 h
      rw [h1]
      have hs : Server.surfaced answer = none := by
        unfold Server.surfaced
        split
        · rename_i c0 c1 c2 t hsplit
          exact absurd hsplit (hno c0 c1 c2 t)
        · rfl
      simp [hs]

theorem surfaced_sublist {F : Type} (answers : List (Answer F)) :
    ((answers.filterMap Server.surfaced).map (fun v => v.2.2.2)).Sublist
      (answers.map (fun a => a.Confidence)) := by
  induction answers with
  | nil => simp
  | cons a rest ih =>
    cases hs : Server.surfaced a with
    | none =>
      rw [List.filterMap_cons_none hs, List.map_cons]
      exact ih.cons _
    | some v =>
      rw [List.filterMap_cons_some hs, List.map_cons, List.map_cons]
      have hv : v.2.2.2 = a.Confidence := by
        unfold Server.surfaced at hs
        split at hs
        · cases hs; rfl
        · cases hs
      rw [hv]
      exact ih.cons₂ _

/-- When the handler's loop runs to its end, the results are, in order, the answers
whose content has more than two fields, each with question, answer, id and score
read off the answer. -/
theorem results_surfaced_in_order {σ F : Type} (eng : Engine σ) (answers : List (Answer F))
    (rs : List (Server.QA F)) (w w1 : World σ)
    (h : Server.results eng answers [] w = (some rs, w1)) :
    rs.map Server.QA.fields = answers.filterMap Server.surfaced := by
  simpa using results_fields eng answers [] rs w w1 h

/-- When the handler's loop runs to its end and the answers are ordered by
confidence (for any relation `r`, such as `≥`), the results are ordered by score. -/
theorem results_descending {σ F : Type} (eng : Engine σ) (r : F → F → Prop)
    (answers : List (Answer F)) (rs : List (Server.QA F)) (w w1 : World σ)
    (h : Server.results eng answers [] w = (some rs, w1))
    (hs : answers.Pairwise (fun x y => r x.Confidence y.Confidence)) :
    rs.Pairwise (fun x y => r x.Score y.Score) := by
  have h1 := results_surfaced_in_order eng answers rs w w1 h
  have h2 : rs.map (fun qa => qa.Score)
      = (answers.filterMap Server.surfaced).map (fun v => v.2.2.2) := by
    rw [← h1, List.map_map]
    rfl
  have h3 : (answers.map (fun a => a.Confidence)).Pairwise r := List.pairwise_map.2 hs
  have h4 : (rs.map (fun qa => qa.Score)).Pairwise r := by
    rw [h2]
    exact h3.sublist (surfaced_sublist answers)
  exact List.pairwise_map.1 h4

/-! ## C3: the results of `getResponse` -/

/-- C3 fails on the code: the chatbot of project `"IT"` answers the query `"hi"` with
the payload `"hi?$$$$hello$$$$7$$$$"`, which has four fields, while table `corpus`
has no row 7. `GetCorpusById` gives `nil`, the handler dereferences it and panics:
no reply is written, where C3 expects a result with question `"hi?"`, answer
`"hello"` and id 7. -/
theorem getResponse_missing_row_panics :
    Split (payload "hi?".toList "hello".toList 7 []) delim
      = ["hi?".toList, "hello".toList, "7".toList, []] ∧
    Server.surfaced ({ Content := payload "hi?".toList "hello".toList 7 [], Confidence := 1 } : Answer Nat)
      = some ("hi?".toList, "hello".toList, 7, 1) ∧
    (GetCorpusById Mem.engine 7 { st := {}, log := [] }).1 = none ∧
    (Server.getResponse Mem.engine
      { chatBots := [("IT".toList, Mem.chatbot "IT".toList
          [({ Content := payload "hi?".toList "hello".toList 7 [], Confidence := 1 } : Answer Nat)])],
        config := {} }
      { vars := [("project".toList, "IT".toList)], form := [("q".toList, "hi".toList)] }
      { st := {}, log := [] }).1 = none := by
  decide

theorem GetResponse_log {σ F δ : Type} (chatbot : ChatBot σ F δ) (text : Str)
    (context : List Str) (w : World σ) :
    (chatbot.GetResponse text context w).2.log
      = w.log ++ Call.canProcess text ::
          (if (chatbot.LogicAdapter.CanProcess text w.st).1 then [Call.process text context]
           else []) := by
  unfold ChatBot.GetResponse
  simp only [call]
  split <;> simp

theorem getResponse_world {σ F δ : Type} (eng : Engine σ) (factory : ChatBotFactory σ F δ)
    (request : Server.Request) (w : World σ) (bot : ChatBot σ F δ)
    (hq : Server.valueOf request.form "q".toList ≠ [])
    (hbot : factory.GetChatBot (Server.valueOf request.vars "project".toList) = some bot) :
    (Server.getResponse eng factory request w).2
      = (Server.results eng
          (bot.GetResponse (Server.valueOf request.form "q".toList)
            (if Server.valueOf request.form "context".toList ≠ [] then
              [Server.valueOf request.form "context".toList] else []) w).1 []
          (bot.GetResponse (Server.valueOf request.form "q".toList)
            (if Server.valueOf request.form "context".toList ≠ [] then
              [Server.valueOf request.form "context".toList] else []) w).2).2 := by
  simp only [Server.getResponse, if_neg hq, hbot]
  split <;> rfl

/-! ## C4: the empty query -/

/-- C4 as stated fails: the query `" "` is white space only, yet `getResponse` does
not answer "No query was provided"; it passes the query on to the chatbot of the
registered project `"IT"`, whose logic adapter is asked to process it. -/
theorem getResponse_blank_query_counterexample :
    TrimSpace " ".toList = [] ∧
    (Server.getResponse Mem.engine
      { chatBots := [("IT".toList, Mem.chatbot "IT".toList ([] : List (Answer Nat)))], config := {} }
      { vars := [("project".toList, "IT".toList)], form := [("q".toList, " ".toList)] }
      { st := {}, log := [] }).1
      = some { status := 200,
               body := .response { Question := " ".toList, Results := [], Message := [] } } ∧
    (Server.getResponse Mem.engine
      { chatBots := [("IT".toList, Mem.chatbot "IT".toList ([] : List (Answer Nat)))], config := {} }
      { vars := [("project".toList, "IT".toList)], form := [("q".toList, " ".toList)] }
      { st := {}, log := [] }).2.log
      = [.canProcess " ".toList, .process " ".toList []] := by
  decide

/-- C4, amended: for the empty query `getResponse` answers with the message
"No query was provided" and no results, and calls no collaborator, the chatbot
included; any other query, white space only or not, is passed on to the chatbot
when the project is registered. -/
theorem getResponse_empty_query {σ F δ : Type} (eng : Engine σ)
    (factory : ChatBotFactory σ F δ) (request : Server.Request) (w : World σ) :
    (Server.valueOf request.form "q".toList = [] →
      Server.getResponse eng factory request w
        = (some { status := 200,
                  body := .response { Question := [], Results := [],
                                      Message := "No query was provided".toList } }, w)) ∧
    (Server.valueOf request.form "q".toList ≠ [] →
      ∀ bot, factory.GetChatBot (Server.valueOf request.vars "project".toList) = some bot →
        ∃ calls, (Server.getResponse eng factory request w).2.log
          = w.log ++ Call.canProcess (Server.valueOf request.form "q".toList) :: calls) := by
  constructor
  · intro hq
    simp only [Server.getResponse, if_pos hq, hq]
    rfl
  · intro hq bot hbot
    obtain ⟨ids, hids⟩ := results_log eng
      (bot.GetResponse (Server.valueOf request.form "q".toList)
        (if Server.valueOf request.form "context".toList ≠ [] then
          [Server.valueOf request.form "context".toList] else []) w).1 []
      (bot.GetResponse (Server.valueOf request.form "q".toList)
        (if Server.valueOf request.form "context".toList ≠ [] then
          [Server.valueOf request.form "context".toList] else []) w).2
    rw [getResponse_world eng factory request w bot hq hbot, hids, GetResponse_log]
    exact ⟨_, by rw [List.append_assoc, List.cons_append]⟩

/-- A request without a query is answered "No query was provided", with no call
on any collaborator. -/
theorem getResponse_empty_query_witness :
    (Server.getResponse Mem.engine
      { chatBots := [("IT".toList, Mem.chatbot "IT".toList ([] : List (Answer Nat)))], config := {} }
      { vars := [("project".toList, "IT".toList)], form := [] }
      { st := {}, log := [] }).1
      = some { status := 200,
               body := .response { Question := [], Results := [],
                                   Message := "No query was provided".toList } } ∧
    (Server.getResponse Mem.engine
      { chatBots := [("IT".toList, Mem.chatbot "IT".toList ([] : List (Answer Nat)))], config := {} }
      { vars := [("project".toList, "IT".toList)], form := [] }
      { st := {}, log := [] }).2.log = [] := by
  have h := (getResponse_empty_query Mem.engine
      { chatBots := [("IT".toList, Mem.chatbot "IT".toList ([] : List (Answer Nat)))], config := {} }
      { vars := [("project".toList, "IT".toList)], form := [] }
      { st := {}, log := [] }).1 (by decide)
  rw [h]
  exact ⟨rfl, rfl⟩

/-! ## C8: the context tag -/

/-- C8: for a request with a query and a registered project, `getResponse` queries
the chatbot once, and the logic adapter receives the query with the tag list
`[context]` when the request's context is not empty and with the empty tag list
when it is; the only later calls are corpus lookups. For a request without a
query or with an unknown project no collaborator is called. -/
theorem getResponse_context_tags {σ F δ : Type} (eng : Engine σ)
    (factory : ChatBotFactory σ F δ) (request : Server.Request) (w : World σ) :
    (∀ bot, Server.valueOf request.form "q".toList ≠ [] →
      factory.GetChatBot (Server.valueOf request.vars "project".toList) = some bot →
      (Server.valueOf request.form "context".toList ≠ [] →
        ∃ ids : List Int, (Server.getResponse eng factory request w).2.log
          = w.log ++ Call.canProcess (Server.valueOf request.form "q".toList) ::
              ((if (bot.LogicAdapter.CanProcess (Server.valueOf request.form "q".toList) w.st).1
                then [Call.process (Server.valueOf request.form "q".toList)
                        [Server.valueOf request.form "context".toList]]
                else []) ++ ids.map (fun id => Call.engineFindCorpusById 1 0 id))) ∧
      (Server.valueOf request.form "context".toList = [] →
        ∃ ids : List Int, (Server.getResponse eng factory request w).2.log
          = w.log ++ Call.canProcess (Server.valueOf request.form "q".toList) ::
              ((if (bot.LogicAdapter.CanProcess (Server.valueOf request.form "q".toList) w.st).1
                then [Call.process (Server.valueOf request.form "q".toList) []]
                else []) ++ ids.map (fun id => Call.engineFindCorpusById 1 0 id)))) ∧
    (Server.valueOf request.form "q".toList = [] ∨
      factory.GetChatBot (Server.valueOf request.vars "project".toList) = none →
      (Server.getResponse eng factory request w).2 = w) := by
  constructor
  · intro bot hq hbot
    obtain ⟨ids, hids⟩ := results_log eng
      (bot.GetResponse (Server.valueOf request.form "q".toList)
        (if Server.valueOf request.form "context".toList ≠ [] then
          [Server.valueOf request.form "context".toList] else []) w).1 []
      (bot.GetResponse (Server.valueOf request.form "q".toList)
        (if Server.valueOf request.form "context".toList ≠ [] then
          [Server.valueOf request.form "context".toList] else []) w).2
    rw [getResponse_world eng factory request w bot hq hbot, hids, GetResponse_log]
    constructor
    · intro hc
      refine ⟨ids, ?_⟩
      rw [if_pos hc, List.append_assoc, List.cons_append]
    · intro hc
      refine ⟨ids, ?_⟩
      rw [if_neg (not_not.2 hc), List.append_assoc, List.cons_append]
  · intro h
    by_cases hq : Server.valueOf request.form "q".toList = []
    · simp only [Server.getResponse, if_pos hq]
    · rcases h with h | h
      · exact absurd h hq
      · simp only [Server.getResponse, if_neg hq, h]

/-- The request `GET /respond/IT?q=hi&context=greet` makes the logic adapter of
project `"IT"` process `"hi"` under the one tag `"greet"`. -/
theorem getResponse_context_tags_witness :
    ∃ ids : List Int,
      (Server.getResponse Mem.engine
        { chatBots := [("IT".toList, Mem.chatbot "IT".toList ([] : List (Answer Nat)))],
          config := {} }
        { vars := [("project".toList, "IT".toList)],
          form := [("q".toList, "hi".toList), ("context".toList, "greet".toList)] }
        { st := {}, log := [] }).2.log
      = [] ++ Call.canProcess "hi".toList ::
          ((if ((Mem.chatbot "IT".toList ([] : List (Answer Nat))).LogicAdapter.CanProcess
                  "hi".toList ({} : Mem.State)).1
            then [Call.process "hi".toList ["greet".toList]] else [])
            ++ ids.map (fun id => Call.engineFindCorpusById 1 0 id)) :=
  ((getResponse_context_tags Mem.engine
      { chatBots := [("IT".toList, Mem.chatbot "IT".toList ([] : List (Answer Nat)))],
        config := {} }
      { vars := [("project".toList, "IT".toList)],
        form := [("q".toList, "hi".toList), ("context".toList, "greet".toList)] }
      { st := {}, log := [] }).1 (Mem.chatbot "IT".toList ([] : List (Answer Nat)))
      (by decide) rfl).1 (by decide)

/-! ## C5: the keys of `LoadCorpusFromDB` -/

theorem TrimSpace_eq_nil_iff (s : Str) : TrimSpace s = [] ↔ ∀ c ∈ s, isSpace c = true := by
  unfold TrimSpace
  rw [List.reverse_eq_nil_iff, List.dropWhile_eq_nil_iff]
  constructor
  · intro h
    have hd : s.dropWhile isSpace = [] := by
      by_contra hne
      have h1 := List.head_dropWhile_not isSpace s hne
      have h2 := h _ (List.mem_reverse.2 (List.head_mem hne))
      rw [h2] at h1
      exact Bool.noConfusion h1
    exact List.dropWhile_eq_nil_iff.1 hd
  · intro h x hx
    exact h x ((List.dropWhile_sublist isSpace).subset (List.mem_reverse.1 hx))

theorem expSplitGo_no_sep :
    ∀ (s cur : Str) (inRun : Bool), (∀ c ∈ cur, isQuestionSep c = false) →
      ∀ piece ∈ expSplitGo s cur inRun, ∀ c ∈ piece, isQuestionSep c = false := by
  intro s
  induction s with
  | nil =>
    intro cur inRun hcur piece hp c hc
    rw [expSplitGo, List.mem_singleton] at hp
    subst hp
    exact hcur c (List.mem_reverse.1 hc)
  | cons x s ih =>
    intro cur inRun hcur piece hp c hc
    rw [expSplitGo] at hp
    split at hp
    · split at hp
      · exact ih [] true (by simp) piece hp c hc
      · rcases List.mem_cons.1 hp with h1 | h1
        · subst h1
          exact hcur c (List.mem_reverse.1 hc)
        · exact ih [] true (by simp) piece h1 c hc
    · rename_i hx
      refine ih (x :: cur) false ?_ piece hp c hc
      intro d hd
      rcases List.mem_cons.1 hd with h1 | h1
      · subst h1
        simpa using hx
      · exact hcur d h1

theorem rowCorpus_even (row : Corpus) :
    ∀ (pieces : List Str) (i : Nat) (key : Str), i % 2 = 0 →
      (rowCorpus row pieces).get? i = some key →
      ∃ piece ∈ pieces, TrimSpace piece ≠ [] ∧ key = questionKey piece := by
  intro pieces
  induction pieces with
  | nil => intro i key _ h; simp [rowCorpus] at h
  | cons q rest ih =>
    intro i key hi h
    rw [rowCorpus] at h
    split at h
    · obtain ⟨piece, hp, hb, hk⟩ := ih i key hi h
      exact ⟨piece, List.mem_cons_of_mem _ hp, hb, hk⟩
    · rename_i hq
      match i, hi, h with
      | 0, _, h =>
        simp only [List.get?_cons_zero, Option.some.injEq] at h
        exact ⟨q, List.mem_cons_self _ _, hq, h.symm⟩
      | 1, hi, _ => omega
      | j + 2, hi, h =>
        simp only [List.get?_cons_succ] at h
        obtain ⟨piece, hp, hb, hk⟩ := ih j key (by omega) h
        exact ⟨piece, List.mem_cons_of_mem _ hp, hb, hk⟩

theorem rowCorpus_eq_flatMap (row : Corpus) (pieces : List Str) :
    rowCorpus row pieces
      = (pieces.filter (fun q => decide (TrimSpace q ≠ []))).flatMap
          (fun q => [questionKey q, payload (questionKey q) row.Answer row.Id row.Context]) := by
  induction pieces with
  | nil => rfl
  | cons q rest ih =>
    rw [rowCorpus]
    split
    · rename_i hq
      rw [List.filter_cons_of_neg (by simpa using hq), ih]
    · rename_i hq
      rw [List.filter_cons_of_pos (by simpa using hq), List.flatMap_cons, ih]
      rfl

theorem questionKey_cases (piece : Str) :
    (HasSuffix piece ['?'] = true ∨ HasSuffix piece ['？'] = true → questionKey piece = piece) ∧
    (¬ (HasSuffix piece ['?'] = true ∨ HasSuffix piece ['？'] = true) →
      questionKey piece = piece ++ ['?']) := by
  unfold questionKey
  cases h1 : HasSuffix piece ['?'] <;> cases h2 : HasSuffix piece ['？'] <;> simp

theorem questionKey_suffix (piece : Str) :
    HasSuffix (questionKey piece) ['?'] = true ∨ HasSuffix (questionKey piece) ['？'] = true := by
  by_cases h : HasSuffix piece ['?'] = true ∨ HasSuffix piece ['？'] = true
  · rw [(questionKey_cases piece).1 h]
    exact h
  · rw [(questionKey_cases piece).2 h]
    left
    unfold HasSuffix
    rw [List.isSuffixOf_iff_suffix]
    exact List.suffix_append _ _

theorem questionKey_mem (piece : Str) (c : Char) (h : c ∈ questionKey piece) :
    c ∈ piece ∨ c = '?' := by
  by_cases hs : HasSuffix piece ['?'] = true ∨ HasSuffix piece ['？'] = true
  · rw [(questionKey_cases piece).1 hs] at h
    exact Or.inl h
  · rw [(questionKey_cases piece).2 hs] at h
    simpa using h

theorem questionKey_not_blank (piece : Str) (h : TrimSpace piece ≠ []) :
    TrimSpace (questionKey piece) ≠ [] := by
  intro hk
  rw [TrimSpace_eq_nil_iff] at hk
  apply h
  rw [TrimSpace_eq_nil_iff]
  intro c hc
  apply hk
  by_cases hs : HasSuffix piece ['?'] = true ∨ HasSuffix piece ['？'] = true
  · rw [(questionKey_cases piece).1 hs]
    exact hc
  · rw [(questionKey_cases piece).2 hs]
    exact List.mem_append_left _ hc

/-- C5: every key that `LoadCorpusFromDB` emits (the entries at the even positions of
a conversation) is well-formed: it is not empty and not white space only, it has
none of the separator characters `|`, `｜`, CR, LF, and it ends with `"?"` or `"？"`.
The conversation holds a key and its payload for each piece of the row's question
that is not blank, and nothing for a blank piece; the key is the piece itself when
that ends with `"?"` or `"？"`, the piece with one `"?"` appended otherwise. -/
theorem LoadCorpusFromDB_keys_well_formed {σ F δ : Type} (eng : Engine σ)
    (chatbot : ChatBot σ F δ) (w : World σ) (res : List (Str × List (List Str)))
    (h : (ChatBot.LoadCorpusFromDB eng chatbot w).1 = .ok res)
    (e : Str × List (List Str)) (he : e ∈ res) (conv : List Str) (hconv : conv ∈ e.2)
    (i : Nat) (key : Str) (hi : i % 2 = 0) (hkey : conv.get? i = some key) :
    key ≠ [] ∧ TrimSpace key ≠ [] ∧
    (∀ c ∈ key, c ≠ '|' ∧ c ≠ '｜' ∧ c ≠ '\r' ∧ c ≠ '\n') ∧
    (HasSuffix key ['?'] = true ∨ HasSuffix key ['？'] = true) ∧
    ∃ row ∈ (eng.FindCorpus { Project := chatbot.Config.Project, Qtype := CORPUS_CORPUS } w.st).1.1,
      conv = ((expSplit row.Question).filter (fun q => decide (TrimSpace q ≠ []))).flatMap
          (fun q => [questionKey q, payload (questionKey q) row.Answer row.Id row.Context]) ∧
      ∃ piece ∈ expSplit row.Question, TrimSpace piece ≠ [] ∧
        (HasSuffix piece ['?'] = true ∨ HasSuffix piece ['？'] = true → key = piece) ∧
        (¬ (HasSuffix piece ['?'] = true ∨ HasSuffix piece ['？'] = true) →
          key = piece ++ ['?']) := by
  unfold ChatBot.LoadCorpusFromDB at h
  simp only [call] at h
  split at h
  · cases h
  · simp only [Except.ok.injEq] at h
    subst h
    rw [List.mem_singleton] at he
    subst he
    simp only [loadRows, List.mem_map] at hconv
    obtain ⟨row, hrow, hrc⟩ := hconv
    subst hrc
    obtain ⟨piece, hp, hb, hk⟩ := rowCorpus_even row _ i key hi hkey
    have hnb := questionKey_not_blank piece hb
    rw [← hk] at hnb
    have hsep : ∀ c ∈ key, isQuestionSep c = false := by
      intro c hc
      rw [hk] at hc
      rcases questionKey_mem piece c hc with h1 | h1
      · exact expSplitGo_no_sep row.Question [] false (by simp) piece hp c h1
      · subst h1
        decide
    refine ⟨?_, hnb, ?_, ?_, row, hrow, rowCorpus_eq_flatMap row _, piece, hp, hb, ?_, ?_⟩
    · intro hnil
      apply hnb
      rw [hnil]
      rfl
    · intro c hc
      have h1 := hsep c hc
      simp only [isQuestionSep, Bool.or_eq_false_iff, decide_eq_false_iff_not] at h1
      exact ⟨h1.1.1.1, h1.1.1.2, h1.1.2, h1.2⟩
    · rw [hk]
      exact questionKey_suffix piece
    · intro hs
      rw [hk]
      exact (questionKey_cases piece).1 hs
    · intro hs
      rw [hk]
      exact (questionKey_cases piece).2 hs

/-- The row with question `"hi|how are you？\n \n|"` of project `"IT"` gives the
conversation of the keys `"hi?"` and `"how are you？"`; the second key is
well-formed. -/
theorem LoadCorpusFromDB_keys_well_formed_witness :
    (ChatBot.LoadCorpusFromDB Mem.engine (Mem.chatbot "IT".toList ([] : List (Answer Nat)))
      { st := { corpus := [{ Id := 1, Project := "IT".toList,
                             Question := "hi|how are you？\n \n|".toList,
                             Answer := "hello".toList, Qtype := 1 }] },
        log := [] }).1
      = .ok [("IT".toList,
          [["hi?".toList, "hi?$$$$hello$$$$1$$$$".toList,
            "how are you？".toList, "how are you？$$$$hello$$$$1$$$$".toList]])] ∧
    ("how are you？".toList ≠ [] ∧ TrimSpace "how are you？".toList ≠ [] ∧
      (∀ c ∈ "how are you？".toList, c ≠ '|' ∧ c ≠ '｜' ∧ c ≠ '\r' ∧ c ≠ '\n') ∧
      (HasSuffix "how are you？".toList ['?'] = true ∨
        HasSuffix "how are you？".toList ['？'] = true)) := by
  have h0 : (ChatBot.LoadCorpusFromDB Mem.engine (Mem.chatbot "IT".toList ([] : List (Answer Nat)))
      { st := { corpus := [{ Id := 1, Project := "IT".toList,
                             Question := "hi|how are you？\n \n|".toList,
                             Answer := "hello".toList, Qtype := 1 }] },
        log := [] }).1
      = .ok [("IT".toList,
          [["hi?".toList, "hi?$$$$hello$$$$1$$$$".toList,
            "how are you？".toList, "how are you？$$$$hello$$$$1$$$$".toList]])] := by
    rfl
  have h1 := LoadCorpusFromDB_keys_well_formed Mem.engine
    (Mem.chatbot "IT".toList ([] : List (Answer Nat))) _ _ h0 _ (List.mem_singleton.2 rfl)
    _ (List.mem_singleton.2 rfl) 2 "how are you？".toList rfl rfl
  exact ⟨h0, h1.1, h1.2.1, h1.2.2.1, h1.2.2.2.1⟩

/-! ## C7: removing a corpus entry -/

/-- C7 fails on the code: for the row 1 of project `"IT"` with question `"hi"`,
`LoadCorpusFromDB` generates the key `"hi?"`, while `RemoveCorpusFromDB` passes the
row's raw question `"hi"` to `StorageAdapter.Remove` and nothing else. The row is
deleted from the table and its key stays in the store. -/
theorem RemoveCorpusFromDB_leaves_key :
    loadRows [{ Id := 1, Project := "IT".toList, Question := "hi".toList,
                Answer := "hello".toList, Qtype := 1 }]
      = [["hi?".toList, "hi?$$$$hello$$$$1$$$$".toList]] ∧
    (ChatBot.RemoveCorpusFromDB Mem.engine (Mem.chatbot "IT".toList ([] : List (Answer Nat)))
      { Id := 1 }
      { st := { corpus := [{ Id := 1, Project := "IT".toList, Question := "hi".toList,
                             Answer := "hello".toList, Qtype := 1 }],
                store := [("hi?".toList, [("hi?$$$$hello$$$$1$$$$".toList, 1)])] },
        log := [] }).2.log
      = [.engineGetCorpus { Id := 1 }, .remove "hi".toList,
         .engineDeleteCorpus { Id := 1, Project := "IT".toList, Question := "hi".toList,
                               Answer := "hello".toList, Qtype := 1 }] ∧
    (ChatBot.RemoveCorpusFromDB Mem.engine (Mem.chatbot "IT".toList ([] : List (Answer Nat)))
      { Id := 1 }
      { st := { corpus := [{ Id := 1, Project := "IT".toList, Question := "hi".toList,
                             Answer := "hello".toList, Qtype := 1 }],
                store := [("hi?".toList, [("hi?$$$$hello$$$$1$$$$".toList, 1)])] },
        log := [] }).2.st
      = { corpus := [], store := [("hi?".toList, [("hi?$$$$hello$$$$1$$$$".toList, 1)])] } := by
  decide

/-! ## C9: `AddProject` -/

theorem AddProject_ok {σ : Type} (eng : Engine σ) (name config : Str) (w : World σ)
    (p : Project) (h : (AddProject eng name config w).1 = .ok p) :
    p.Name = name ∧ p.Config = config := by
  unfold AddProject at h
  simp only at h
  split at h
  · cases h
  · split at h
    · cases h
    · simp only [Except.ok.injEq] at h
      subst h
      exact ⟨rfl, rfl⟩

/-- C9: whenever `ChatBotFactory.AddProject` succeeds, the project it returns has
the requested name and config; and so has the project that the client's
`AddProject` returns when its request is served by the handler `addProject`. -/
theorem AddProject_returns_requested {σ F : Type} (eng : Engine σ) (name config : Str)
    (w : World σ) :
    (∀ p, (AddProject eng name config w).1 = .ok p → p.Name = name ∧ p.Config = config) ∧
    (∀ p, Client.AddProject
        (fun body => (.ok (Server.addProject eng (.ok body) w).1 :
          Except Str (Server.HttpResponse F))) name config = .ok p →
      p.Name = name ∧ p.Config = config) := by
  refine ⟨fun p h => AddProject_ok eng name config w p h, ?_⟩
  intro p h
  unfold Client.AddProject at h
  simp only [Server.addProject] at h
  cases ha : (AddProject eng name config w).1 with
  | error err =>
    rw [ha] at h
    simp only [Server.SendError] at h
    rw [if_pos (by decide)] at h
    split at h <;> cases h
  | ok q =>
    rw [ha] at h
    simp only [Server.SendJson] at h
    rw [if_neg (by decide)] at h
    simp only [Except.ok.injEq] at h
    subst h
    exact AddProject_ok eng name config w q ha

/-- Adding the project `"demo"` to the empty database succeeds and returns a project
named `"demo"`, on the server and through the client. -/
theorem AddProject_returns_requested_witness :
    (AddProject Mem.engine "demo".toList [] { st := {}, log := [] }).1
      = .ok { Id := 1, Name := "demo".toList, Config := [] } ∧
    Client.AddProject
        (fun body => (.ok (Server.addProject Mem.engine (.ok body) { st := {}, log := [] }).1 :
          Except Str (Server.HttpResponse Nat))) "demo".toList []
      = .ok { Id := 1, Name := "demo".toList, Config := [] } ∧
    (({ Id := 1, Name := "demo".toList, Config := [] } : Project).Name = "demo".toList ∧
      ({ Id := 1, Name := "demo".toList, Config := [] } : Project).Config = []) :=
  ⟨rfl, rfl,
   (@AddProject_returns_requested Mem.State Nat Mem.engine "demo".toList []
     { st := {}, log := [] }).2 { Id := 1, Name := "demo".toList, Config := [] } rfl⟩

/-! ## C10: the handler of `POST v1/add` -/

theorem AddCorpusToDB_log {σ : Type} (eng : Engine σ) (corpus : Corpus) (w : World σ) :
    ∃ calls : List Call, (ChatBot.AddCorpusToDB eng corpus w).2.log = w.log ++ calls ∧
      ∀ c ∈ calls, (∀ k v, c ≠ Call.update k v) ∧ c ≠ Call.buildIndex := by
  unfold ChatBot.AddCorpusToDB
  simp only [call]
  split
  · refine ⟨_, List.append_assoc _ _ _, ?_⟩
    intro c hc
    simp only [List.mem_append, List.mem_singleton] at hc
    rcases hc with h | h <;> subst h <;> simp
  · split
    · refine ⟨_, List.append_assoc _ _ _, ?_⟩
      intro c hc
      simp only [List.mem_append, List.mem_singleton] at hc
      rcases hc with h | h <;> subst h <;> simp
    · refine ⟨[_], rfl, ?_⟩
      intro c hc
      simp only [List.mem_singleton] at hc
      subst hc
      simp

theorem AddCorpusToDB_keeps {σ : Type} (eng : Engine σ) (corpus : Corpus) (w : World σ) :
    (ChatBot.AddCorpusToDB eng corpus w).1.2.Question = corpus.Question ∧
    (ChatBot.AddCorpusToDB eng corpus w).1.2.Answer = corpus.Answer := by
  unfold ChatBot.AddCorpusToDB
  simp only [call]
  split
  · exact ⟨rfl, rfl⟩
  · split <;> exact ⟨rfl, rfl⟩

/-- The handler over the repository's own package `bot`, for a registered project:
`AddCorpusToDB` makes calls on the engine only and leaves the question and the
answer as bound, so that on success the calls that follow are
`Update(question, {question + "$$$$" + answer: 1})` and `BuildIndex`. -/
theorem add_own_bot_calls {σ F δ : Type} (eng : Engine σ)
    (factory : ChatBotFactory σ F δ) (corpus : Corpus) (w : World σ) (bot : ChatBot σ F δ)
    (hbot : factory.GetChatBot corpus.Project = some bot) :
    ∃ calls : List Call,
      (ChatBot.AddCorpusToDB eng corpus w).2.log = w.log ++ calls ∧
      (∀ c ∈ calls, (∀ k v, c ≠ Call.update k v) ∧ c ≠ Call.buildIndex) ∧
      (∀ err, (ChatBot.AddCorpusToDB eng corpus w).1.1 = some err →
        (Cli.add F (Cli.ownBot eng factory) corpus w).1
          = { writes := [(500, { Msg := err })], panicked := false } ∧
        (Cli.add F (Cli.ownBot eng factory) corpus w).2.log = w.log ++ calls) ∧
      ((ChatBot.AddCorpusToDB eng corpus w).1.1 = none →
        (Cli.add F (Cli.ownBot eng factory) corpus w).1
          = { writes := [(200, { Code := 0, Msg := "success".toList })], panicked := false } ∧
        (Cli.add F (Cli.ownBot eng factory) corpus w).2.log
          = w.log ++ calls ++
              [Call.update corpus.Question [(corpus.Question ++ delim ++ corpus.Answer, 1)],
               Call.buildIndex]) := by
  obtain ⟨calls, hlog, hcalls⟩ := AddCorpusToDB_log eng corpus w
  obtain ⟨hkq, hka⟩ := AddCorpusToDB_keeps eng corpus w
  refine ⟨calls, hlog, hcalls, ?_, ?_⟩
  · intro err herr
    simp only [Cli.add, Cli.ownBot, hbot, herr, List.nil_append]
    exact ⟨trivial, hlog⟩
  · intro hnone
    simp only [Cli.add, Cli.ownBot, hbot, hnone, List.nil_append, call, hkq, hka, hlog]
    exact ⟨trivial, by simp⟩

/-- C10: in the handler of `POST v1/add`, for a registered project: when
`AddCorpusToDB` fails the handler answers with status 500 and does nothing more, so
that the log and the state are as `AddCorpusToDB` left them, neither `Update` nor
`BuildIndex` is called, and the store (any part of the state that `AddCorpusToDB`
left as it was) is unchanged; when it succeeds the handler answers
"success" after calling `Update(question, {question + "$$$$" + answer: 1})` once
and then `BuildIndex` once, on the chatbot's storage adapter: these two calls are
what it adds to the log, and the state is the one `BuildIndex` leaves when applied
after `Update`. -/
theorem add_updates_store_after_db {σ F β γ : Type} (imp : Cli.Imported σ β γ)
    (corpus : γ) (w : World σ) (bot : β)
    (hbot : imp.GetChatBot (imp.Project corpus) = some bot) :
    (∀ err, (imp.AddCorpusToDB (some bot) corpus w).1.1 = some err →
      (Cli.add F imp corpus w).1
        = { writes := [(500, { Msg := err })], panicked := false } ∧
      (Cli.add F imp corpus w).2.log = (imp.AddCorpusToDB (some bot) corpus w).2.log ∧
      (Cli.add F imp corpus w).2.st = (imp.AddCorpusToDB (some bot) corpus w).2.st ∧
      (∀ (S : Type) (store : σ → S),
        store (imp.AddCorpusToDB (some bot) corpus w).2.st = store w.st →
        store (Cli.add F imp corpus w).2.st = store w.st)) ∧
    ((imp.AddCorpusToDB (some bot) corpus w).1.1 = none →
      (Cli.add F imp corpus w).1
        = { writes := [(200, { Code := 0, Msg := "success".toList })], panicked := false } ∧
      (Cli.add F imp corpus w).2.log
        = (imp.AddCorpusToDB (some bot) corpus w).2.log ++
            [Call.update (imp.Question (imp.AddCorpusToDB (some bot) corpus w).1.2)
               [(imp.Question (imp.AddCorpusToDB (some bot) corpus w).1.2 ++ delim ++
                   imp.Answer (imp.AddCorpusToDB (some bot) corpus w).1.2, 1)],
             Call.buildIndex] ∧
      (Cli.add F imp corpus w).2.st
        = (imp.BuildIndex bot
            (imp.Update bot (imp.Question (imp.AddCorpusToDB (some bot) corpus w).1.2)
              [(imp.Question (imp.AddCorpusToDB (some bot) corpus w).1.2 ++ delim ++
                  imp.Answer (imp.AddCorpusToDB (some bot) corpus w).1.2, 1)]
              (imp.AddCorpusToDB (some bot) corpus w).2.st).2).2) := by
  constructor
  · intro err herr
    simp only [Cli.add, hbot, herr, List.nil_append]
    exact ⟨trivial, trivial, trivial, fun _ _ h => h⟩
  · intro hnone
    simp only [Cli.add, hbot, hnone, List.nil_append, call]
    exact ⟨trivial, by simp, trivial⟩

/-- Adding the question `"hi"` with answer `"hello"` to the registered project `"IT"`,
with the repository's own package `bot`: on the working engine the row is inserted,
then the store gets the key `"hi"` and the index is built; on the locked engine the
handler answers 500 after the failed insert, and table and store stay empty. -/
theorem add_updates_store_after_db_witness :
    ((Cli.add Nat (Cli.ownBot Mem.engine
          { chatBots := [("IT".toList, Mem.chatbot "IT".toList ([] : List (Answer Nat)))],
            config := {} })
        { Project := "IT".toList, Question := "hi".toList, Answer := "hello".toList }
        { st := {}, log := [] }).2.log
      = [.engineGetCorpus { Question := "hi".toList },
         .engineInsertCorpus
           { Project := "IT".toList, Question := "hi".toList, Answer := "hello".toList },
         .update "hi".toList [("hi$$$$hello".toList, 1)], .buildIndex]) ∧
    ((Cli.add Nat (Cli.ownBot Mem.engine
          { chatBots := [("IT".toList, Mem.chatbot "IT".toList ([] : List (Answer Nat)))],
            config := {} })
        { Project := "IT".toList, Question := "hi".toList, Answer := "hello".toList }
        { st := {}, log := [] }).2.st
      = { corpus := [{ Id := 1, Project := "IT".toList, Question := "hi".toList,
                       Answer := "hello".toList }],
          store := [("hi".toList, [("hi$$$$hello".toList, 1)])], clock := 1 }) ∧
    ((Cli.add Nat (Cli.ownBot Mem.lockedEngine
          { chatBots := [("IT".toList, Mem.chatbot "IT".toList ([] : List (Answer Nat)))],
            config := {} })
        { Project := "IT".toList, Question := "hi".toList, Answer := "hello".toList }
        { st := {}, log := [] }).1
      = { writes := [(500, { Msg := "database is locked".toList })], panicked := false }) ∧
    ((Cli.add Nat (Cli.ownBot Mem.lockedEngine
          { chatBots := [("IT".toList, Mem.chatbot "IT".toList ([] : List (Answer Nat)))],
            config := {} })
        { Project := "IT".toList, Question := "hi".toList, Answer := "hello".toList }
        { st := {}, log := [] }).2.st = {}) := by
  have hok := (@add_updates_store_after_db Mem.State Nat _ _ (Cli.ownBot Mem.engine
      { chatBots := [("IT".toList, Mem.chatbot "IT".toList ([] : List (Answer Nat)))],
        config := {} })
    { Project := "IT".toList, Question := "hi".toList, Answer := "hello".toList }
    { st := {}, log := [] } (Mem.chatbot "IT".toList ([] : List (Answer Nat))) rfl).2 rfl
  have herr := (@add_updates_store_after_db Mem.State Nat _ _ (Cli.ownBot Mem.lockedEngine
      { chatBots := [("IT".toList, Mem.chatbot "IT".toList ([] : List (Answer Nat)))],
        config := {} })
    { Project := "IT".toList, Question := "hi".toList, Answer := "hello".toList }
    { st := {}, log := [] } (Mem.chatbot "IT".toList ([] : List (Answer Nat))) rfl).1
    "database is locked".toList rfl
  exact ⟨hok.2.1.trans rfl, hok.2.2.trans rfl, herr.1, herr.2.2.1.trans rfl⟩

/-! ## C18: the registry of chatbots -/

theorem GetChatBot_AddChatBot {σ F δ : Type} (f : ChatBotFactory σ F δ) (q p : Str)
    (b : ChatBot σ F δ) :
    (f.AddChatBot q b).GetChatBot p
      = match f.GetChatBot p with
        | some x => some x
        | none => if q = p then some b else none := by
  unfold ChatBotFactory.AddChatBot
  cases hq : f.GetChatBot q with
  | some x =>
    simp only
    cases hp : f.GetChatBot p with
    | some y => rfl
    | none =>
      simp only
      by_cases hqp : q = p
      · rw [hqp, hp] at hq
        cases hq
      · rw [if_neg hqp]
  | none =>
    simp only
    cases hp : f.GetChatBot p with
    | some y =>
      simp only [ChatBotFactory.GetChatBot, List.find?_append] at hp ⊢
      cases hf : f.chatBots.find? (fun e => decide (e.1 = p)) with
      | none => rw [hf] at hp; cases hp
      | some e => rw [hf] at hp; simpa using hp
    | none =>
      simp only [ChatBotFactory.GetChatBot, List.find?_append] at hp ⊢
      cases hf : f.chatBots.find? (fun e => decide (e.1 = p)) with
      | some e => rw [hf] at hp; cases hp
      | none =>
        by_cases hqp : q = p
        · simp [hqp]
        · simp [hqp]

theorem AddChatBot_registered {σ F δ : Type} (f : ChatBotFactory σ F δ) (p : Str)
    (b : ChatBot σ F δ) (h : (f.GetChatBot p).isSome = true) : f.AddChatBot p b = f := by
  unfold ChatBotFactory.AddChatBot
  cases hp : f.GetChatBot p with
  | some x => rfl
  | none => rw [hp] at h; cases h

theorem GetChatBot_foldl {σ F δ : Type} (p : Str) :
    ∀ (calls : List (Str × ChatBot σ F δ)) (f : ChatBotFactory σ F δ),
      (calls.foldl (fun g c => g.AddChatBot c.1 c.2) f).GetChatBot p
        = match f.GetChatBot p with
          | some x => some x
          | none => (calls.find? (fun c => c.1 = p)).map (fun c => c.2) := by
  intro calls
  induction calls with
  | nil =>
    intro f
    rw [List.foldl_nil]
    cases f.GetChatBot p <;> rfl
  | cons c rest ih =>
    intro f
    rw [List.foldl_cons, ih, GetChatBot_AddChatBot]
    cases hp : f.GetChatBot p with
    | some x => rfl
    | none =>
      simp only
      by_cases hcp : c.1 = p
      · simp [hcp]
      · simp [hcp]

/-- C18: after any sequence of `AddChatBot` calls on a new factory, `GetChatBot(p)`
gives the first chatbot added under `p`, and nothing when none was added; once a
chatbot is registered under `p`, a further `AddChatBot(p, b)` leaves the registry
as it is. -/
theorem registry_keeps_first {σ F δ : Type} (config : Config)
    (calls : List (Str × ChatBot σ F δ)) (p : Str) :
    ((calls.foldl (fun g c => g.AddChatBot c.1 c.2) (NewChatBotFactory config)).GetChatBot p
      = (calls.find? (fun c => c.1 = p)).map (fun c => c.2)) ∧
    (∀ b, ((calls.find? (fun c => c.1 = p)).map (fun c => c.2)).isSome = true →
      (calls.foldl (fun g c => g.AddChatBot c.1 c.2) (NewChatBotFactory config)).AddChatBot p b
        = calls.foldl (fun g c => g.AddChatBot c.1 c.2) (NewChatBotFactory config)) := by
  have h1 : (calls.foldl (fun g c => g.AddChatBot c.1 c.2)
      (NewChatBotFactory config)).GetChatBot p
      = (calls.find? (fun c => c.1 = p)).map (fun c => c.2) := by
    rw [GetChatBot_foldl]
    rfl
  refine ⟨h1, ?_⟩
  intro b hb
  apply AddChatBot_registered
  rw [h1]
  exact hb

/-- Two chatbots are added under `"IT"`, with the answers `"first"` and `"second"`:
the registry keeps the first one, and has nothing under `"HR"`. -/
theorem registry_keeps_first_witness :
    ((([("IT".toList, Mem.chatbot "IT".toList [({ Content := "first".toList, Confidence := 1 } : Answer Nat)]),
        ("IT".toList, Mem.chatbot "IT".toList [{ Content := "second".toList, Confidence := 1 }])].foldl
        (fun g c => g.AddChatBot c.1 c.2) (NewChatBotFactory {})).GetChatBot "IT".toList).map
          (fun b => (b.LogicAdapter.Process [] [] {}).1)
      = some [{ Content := "first".toList, Confidence := 1 }]) ∧
    ((([("IT".toList, Mem.chatbot "IT".toList [({ Content := "first".toList, Confidence := 1 } : Answer Nat)]),
        ("IT".toList, Mem.chatbot "IT".toList [{ Content := "second".toList, Confidence := 1 }])].foldl
        (fun g c => g.AddChatBot c.1 c.2) (NewChatBotFactory {})).GetChatBot "HR".toList).isNone
      = true) := by
  constructor
  · rw [(registry_keeps_first {}
      [("IT".toList, Mem.chatbot "IT".toList [({ Content := "first".toList, Confidence := 1 } : Answer Nat)]),
       ("IT".toList, Mem.chatbot "IT".toList [{ Content := "second".toList, Confidence := 1 }])]
      "IT".toList).1]
    rfl
  · rw [(registry_keeps_first {}
      [("IT".toList, Mem.chatbot "IT".toList [({ Content := "first".toList, Confidence := 1 } : Answer Nat)]),
       ("IT".toList, Mem.chatbot "IT".toList [{ Content := "second".toList, Confidence := 1 }])]
      "HR".toList).1]
    rfl

/-! ## C12: keys and payloads in pairs -/

theorem payload_begins (key answer : Str) (id : Int) (context : Str) :
    payload key answer id context
      = key ++ delim ++ (answer ++ delim ++ formatInt id ++ delim ++ context) := by
  simp [payload, List.append_assoc]

theorem rowCorpus_pairs (row : Corpus) :
    ∀ (pieces : List Str),
      (rowCorpus row pieces).length % 2 = 0 ∧
      ∀ i, i % 2 = 0 → i < (rowCorpus row pieces).length →
        ∃ key rest, (rowCorpus row pieces).get? i = some key ∧
          (rowCorpus row pieces).get? (i + 1) = some (key ++ delim ++ rest) := by
  intro pieces
  induction pieces with
  | nil =>
    refine ⟨rfl, ?_⟩
    intro i _ hlt
    simp [rowCorpus] at hlt
  | cons q rest ih =>
    rw [rowCorpus]
    split
    · exact ih
    · refine ⟨?_, ?_⟩
      · simp only [List.length_cons]
        omega
      · intro i hi hlt
        match i, hi, hlt with
        | 0, _, _ =>
          exact ⟨questionKey q, _, rfl, by
            simp only [List.get?_cons_succ, List.get?_cons_zero]
            rw [payload_begins]⟩
        | 1, hi, _ => omega
        | j + 2, hi, hlt =>
          simp only [List.length_cons] at hlt
          obtain ⟨key, r, h1, h2⟩ := ih.2 j (by omega) (by omega)
          exact ⟨key, r, by simpa using h1, by simpa using h2⟩

/-- C12: when `LoadCorpusFromDB` succeeds, its result has exactly one entry, under
`Config.Project`, with one conversation per loaded row, in the order of the rows;
every conversation has even length, and each even index holds a key whose payload,
at the next index, begins with that key followed by `"$$$$"`. -/
theorem LoadCorpusFromDB_pairs {σ F δ : Type} (eng : Engine σ) (chatbot : ChatBot σ F δ)
    (w : World σ) (res : List (Str × List (List Str)))
    (h : (ChatBot.LoadCorpusFromDB eng chatbot w).1 = .ok res) :
    ∃ convs : List (List Str),
      res = [(chatbot.Config.Project, convs)] ∧
      convs = (eng.FindCorpus { Project := chatbot.Config.Project, Qtype := CORPUS_CORPUS }
                w.st).1.1.map (fun row => rowCorpus row (expSplit row.Question)) ∧
      convs.length = (eng.FindCorpus { Project := chatbot.Config.Project, Qtype := CORPUS_CORPUS }
                w.st).1.1.length ∧
      ∀ conv ∈ convs, conv.length % 2 = 0 ∧
        ∀ i, i % 2 = 0 → i < conv.length →
          ∃ key rest, conv.get? i = some key ∧ conv.get? (i + 1) = some (key ++ delim ++ rest) := by
  unfold ChatBot.LoadCorpusFromDB at h
  simp only [call] at h
  split at h
  · cases h
  · simp only [Except.ok.injEq] at h
    refine ⟨_, h.symm, rfl, by simp [loadRows], ?_⟩
    intro conv hconv
    simp only [loadRows, List.mem_map] at hconv
    obtain ⟨row, _, hrc⟩ := hconv
    subst hrc
    exact rowCorpus_pairs row _

/-- The two rows of project `"IT"` give two conversations, in the order of the rows;
the first holds two keys, each followed by its payload. -/
theorem LoadCorpusFromDB_pairs_witness :
    ∃ convs : List (List Str),
      [("IT".toList,
          [["hi?".toList, "hi?$$$$hello$$$$1$$$$".toList,
            "hey?".toList, "hey?$$$$hello$$$$1$$$$".toList],
           ["bye?".toList, "bye?$$$$see you$$$$2$$$$end".toList]])]
        = [((Mem.chatbot "IT".toList ([] : List (Answer Nat))).Config.Project, convs)] ∧
      convs = (Mem.engine.FindCorpus
          { Project := (Mem.chatbot "IT".toList ([] : List (Answer Nat))).Config.Project,
            Qtype := CORPUS_CORPUS }
          { corpus := [{ Id := 1, Project := "IT".toList, Question := "hi|hey".toList,
                         Answer := "hello".toList, Qtype := 1 },
                       { Id := 2, Project := "IT".toList, Question := "bye".toList,
                         Answer := "see you".toList, Qtype := 1, Context := "end".toList }] }).1.1.map
            (fun row => rowCorpus row (expSplit row.Question)) ∧
      convs.length = (Mem.engine.FindCorpus
          { Project := (Mem.chatbot "IT".toList ([] : List (Answer Nat))).Config.Project,
            Qtype := CORPUS_CORPUS }
          { corpus := [{ Id := 1, Project := "IT".toList, Question := "hi|hey".toList,
                         Answer := "hello".toList, Qtype := 1 },
                       { Id := 2, Project := "IT".toList, Question := "bye".toList,
                         Answer := "see you".toList, Qtype := 1, Context := "end".toList }] }).1.1.length ∧
      ∀ conv ∈ convs, conv.length % 2 = 0 ∧
        ∀ i, i % 2 = 0 → i < conv.length →
          ∃ key rest, conv.get? i = some key ∧ conv.get? (i + 1) = some (key ++ delim ++ rest) :=
  LoadCorpusFromDB_pairs Mem.engine (Mem.chatbot "IT".toList ([] : List (Answer Nat)))
    { st := { corpus := [{ Id := 1, Project := "IT".toList, Question := "hi|hey".toList,
                           Answer := "hello".toList, Qtype := 1 },
                         { Id := 2, Project := "IT".toList, Question := "bye".toList,
                           Answer := "see you".toList, Qtype := 1, Context := "end".toList }] },
      log := [] }
    _ rfl

/-! ## C11: the aliases of one row -/

theorem expSplitGo_alias (rest : Str) :
    ∀ (al cur : Str) (inRun : Bool), (∀ c ∈ al, isQuestionSep c = false) →
      expSplitGo (al ++ rest) cur inRun
        = expSplitGo rest (al.reverse ++ cur) (inRun && al.isEmpty) := by
  intro al
  induction al with
  | nil => intro cur inRun _; simp
  | cons x al ih =>
    intro cur inRun h
    have hx : isQuestionSep x = false := h x (List.mem_cons_self _ _)
    have ih1 := ih (x :: cur) false (fun c hc => h c (List.mem_cons_of_mem _ hc))
    rw [List.cons_append, expSplitGo, hx]
    simp only [Bool.false_eq_true, if_false]
    rw [ih1]
    simp

theorem expSplitGo_run (rest : Str) :
    ∀ (run cur : Str) (inRun : Bool), run ≠ [] → (∀ c ∈ run, isQuestionSep c = true) →
      expSplitGo (run ++ rest) cur inRun
        = (if inRun then [] else [cur.reverse]) ++ expSplitGo rest [] true := by
  intro run
  induction run with
  | nil => intro cur inRun hne _; exact absurd rfl hne
  | cons x run ih =>
    intro cur inRun _ h
    have hx : isQuestionSep x = true := h x (List.mem_cons_self _ _)
    rw [List.cons_append, expSplitGo, if_pos hx]
    cases run with
    | nil => cases inRun <;> simp
    | cons y run =>
      have ih1 := ih [] true (List.cons_ne_nil _ _) (fun c hc => h c (List.mem_cons_of_mem _ hc))
      cases inRun
      · simp only [Bool.false_eq_true, if_false]
        rw [ih1]
        simp
      · simp only [if_true]
        rw [ih1]
        simp

theorem expSplitGo_aliasQuestion (last : Str) (hlast : ∀ c ∈ last, isQuestionSep c = false) :
    ∀ (pairs : List (Str × Str)) (cur : Str) (inRun : Bool),
      (∀ p ∈ pairs, (∀ c ∈ p.1, isQuestionSep c = false) ∧ p.2 ≠ [] ∧
        ∀ c ∈ p.2, isQuestionSep c = true) →
      (inRun = true → cur = []) →
      (expSplitGo (aliasQuestion pairs last) cur inRun).filter
          (fun q => decide (TrimSpace q ≠ []))
        = (match pairs with
           | [] => [cur.reverse ++ last]
           | p :: rest => (cur.reverse ++ p.1) :: (rest.map Prod.fst ++ [last])).filter
          (fun q => decide (TrimSpace q ≠ [])) := by
  intro pairs
  induction pairs with
  | nil =>
    intro cur inRun _ _
    have h := expSplitGo_alias [] last cur inRun hlast
    rw [List.append_nil] at h
    simp only [aliasQuestion]
    rw [h, expSplitGo]
    simp
  | cons p rest ih =>
    intro cur inRun hp hinv
    obtain ⟨al, run⟩ := p
    have hal := hp (al, run) (List.mem_cons_self _ _)
    have ih1 : (expSplitGo (aliasQuestion rest last) [] true).filter
          (fun q => decide (TrimSpace q ≠ []))
        = (rest.map Prod.fst ++ [last]).filter (fun q => decide (TrimSpace q ≠ [])) := by
      rw [ih [] true (fun e he => hp e (List.mem_cons_of_mem _ he)) (fun _ => rfl)]
      cases rest <;> simp
    simp only [aliasQuestion]
    rw [expSplitGo_alias _ al cur inRun hal.1, expSplitGo_run _ run _ _ hal.2.1 hal.2.2,
      List.filter_append, ih1, ← List.filter_append]
    cases hrun : (inRun && al.isEmpty)
    · simp only [Bool.false_eq_true, if_false, List.reverse_append, List.reverse_reverse,
        List.singleton_append]
    · simp only [Bool.and_eq_true, List.isEmpty_iff] at hrun
      have hcur := hinv hrun.1
      rw [hcur, hrun.2]
      have hb : TrimSpace ([] : Str) = [] := rfl
      simp [hb]

theorem expSplit_aliasQuestion (pairs : List (Str × Str)) (last : Str)
    (hpairs : ∀ p ∈ pairs, (∀ c ∈ p.1, isQuestionSep c = false) ∧ p.2 ≠ [] ∧
      ∀ c ∈ p.2, isQuestionSep c = true)
    (hlast : ∀ c ∈ last, isQuestionSep c = false) :
    (expSplit (aliasQuestion pairs last)).filter (fun q => decide (TrimSpace q ≠ []))
      = (pairs.map Prod.fst ++ [last]).filter (fun q => decide (TrimSpace q ≠ [])) := by
  unfold expSplit
  rw [expSplitGo_aliasQuestion last hlast pairs [] false hpairs (fun h => by cases h)]
  cases pairs <;> simp

/-- C11: when a loaded row's question is made of aliases separated by runs of `|`,
`｜`, CR or LF, the conversation that `LoadCorpusFromDB` emits for the row holds one
key for each alias that is not blank, in the order of the aliases, and each key is
followed by the payload made of that key and of the row's answer, id and context. -/
theorem LoadCorpusFromDB_aliases {σ F δ : Type} (eng : Engine σ) (chatbot : ChatBot σ F δ)
    (w : World σ) (res : List (Str × List (List Str)))
    (h : (ChatBot.LoadCorpusFromDB eng chatbot w).1 = .ok res)
    (row : Corpus)
    (hrow : row ∈ (eng.FindCorpus { Project := chatbot.Config.Project, Qtype := CORPUS_CORPUS }
      w.st).1.1)
    (pairs : List (Str × Str)) (last : Str)
    (hq : row.Question = aliasQuestion pairs last)
    (hpairs : ∀ p ∈ pairs, (∀ c ∈ p.1, isQuestionSep c = false) ∧ p.2 ≠ [] ∧
      ∀ c ∈ p.2, isQuestionSep c = true)
    (hlast : ∀ c ∈ last, isQuestionSep c = false) :
    ∃ convs : List (List Str),
      res = [(chatbot.Config.Project, convs)] ∧
      ((pairs.map Prod.fst ++ [last]).filter (fun al => decide (TrimSpace al ≠ []))).flatMap
          (fun al => [questionKey al, payload (questionKey al) row.Answer row.Id row.Context])
        ∈ convs := by
  unfold ChatBot.LoadCorpusFromDB at h
  simp only [call] at h
  split at h
  · cases h
  · simp only [Except.ok.injEq] at h
    refine ⟨_, h.symm, ?_⟩
    simp only [loadRows, List.mem_map]
    refine ⟨row, hrow, ?_⟩
    rw [rowCorpus_eq_flatMap, hq, expSplit_aliasQuestion pairs last hpairs hlast]

/-- The row with question `"hi|how are you？\n \n|"` holds the aliases `"hi"`,
`"how are you？"`, `" "` and `""`: its conversation has the keys `"hi?"` and
`"how are you？"`, both with the answer `"hello"`, the id 1 and the context `"more"`. -/
theorem LoadCorpusFromDB_aliases_witness :
    ∃ convs : List (List Str),
      [("IT".toList,
          [["hi?".toList, "hi?$$$$hello$$$$1$$$$more".toList,
            "how are you？".toList, "how are you？$$$$hello$$$$1$$$$more".toList]])]
        = [((Mem.chatbot "IT".toList ([] : List (Answer Nat))).Config.Project, convs)] ∧
      ((([("hi".toList, "|".toList), ("how are you？".toList, "\n".toList),
          (" ".toList, "\n|".toList)] : List (Str × Str)).map Prod.fst ++ [[]]).filter
            (fun al => decide (TrimSpace al ≠ []))).flatMap
          (fun al => [questionKey al, payload (questionKey al) "hello".toList 1 "more".toList])
        ∈ convs :=
  LoadCorpusFromDB_aliases Mem.engine (Mem.chatbot "IT".toList ([] : List (Answer Nat)))
    { st := { corpus := [{ Id := 1, Project := "IT".toList,
                           Question := "hi|how are you？\n \n|".toList,
                           Answer := "hello".toList, Qtype := 1, Context := "more".toList }] },
      log := [] }
    _ rfl
    { Id := 1, Project := "IT".toList, Question := "hi|how are you？\n \n|".toList,
      Answer := "hello".toList, Qtype := 1, Context := "more".toList }
    (by decide)
    [("hi".toList, "|".toList), ("how are you？".toList, "\n".toList),
     (" ".toList, "\n|".toList)] []
    (by decide) (by decide) (by decide)

/-! ## C17: the counters of a corpus row -/

theorem addInt_one (a : Int) (hmin : minInt ≤ a) (hmax : a < maxInt) : addInt a 1 = a + 1 := by
  unfold addInt
  unfold minInt maxInt at *
  omega

/-- C17: `UpdateCorpusCounter` returns an error for an id that is not positive, with
no call on the engine. For a positive id whose row `Get` finds, it makes one write,
of the columns `reject_count` and `accept_count`, with the accept count one more
(in Go's `int`, which is the row's count plus one below the largest `int`) and the
reject count as read when `isOk`, and the other way round otherwise; the error of
the write is returned. When `Get` finds no row it returns "record not found" and
writes nothing. -/
theorem UpdateCorpusCounter_one_counter {σ : Type} (eng : Engine σ) (id : Int) (isOk : Bool)
    (w : World σ) :
    (id ≤ 0 →
      (UpdateCorpusCounter eng id isOk w).1 = some "编号<0不合法".toList ∧
      (UpdateCorpusCounter eng id isOk w).2.log = w.log ∧
      (UpdateCorpusCounter eng id isOk w).2.st = w.st) ∧
    (0 < id → ∀ found, (eng.GetCorpus { Id := id } w.st).1.1 = some found →
      ∃ written : Corpus,
        (UpdateCorpusCounter eng id isOk w).2.log
          = w.log ++ [.engineGetCorpus { Id := id },
              .engineUpdateCorpusCols id ["reject_count".toList, "accept_count".toList] written] ∧
        (UpdateCorpusCounter eng id isOk w).1
          = (eng.UpdateCorpusCols id ["reject_count".toList, "accept_count".toList] written
              (eng.GetCorpus { Id := id } w.st).2).1.err ∧
        (isOk = true →
          written.AcceptCount = addInt found.AcceptCount 1 ∧
          written.RejectCount = found.RejectCount ∧
          (minInt ≤ found.AcceptCount → found.AcceptCount < maxInt →
            written.AcceptCount = found.AcceptCount + 1)) ∧
        (isOk = false →
          written.RejectCount = addInt found.RejectCount 1 ∧
          written.AcceptCount = found.AcceptCount ∧
          (minInt ≤ found.RejectCount → found.RejectCount < maxInt →
            written.RejectCount = found.RejectCount + 1))) ∧
    (0 < id → (eng.GetCorpus { Id := id } w.st).1.1 = none →
      (UpdateCorpusCounter eng id isOk w).1 = some "record not found".toList ∧
      (UpdateCorpusCounter eng id isOk w).2.log = w.log ++ [.engineGetCorpus { Id := id }]) := by
  refine ⟨?_, ?_, ?_⟩
  · intro hid
    unfold UpdateCorpusCounter
    rw [if_pos hid]
    exact ⟨rfl, rfl, rfl⟩
  · intro hid found hfound
    have hnot : ¬ id ≤ 0 := by omega
    unfold UpdateCorpusCounter
    simp only [if_neg hnot, call, hfound]
    rw [if_pos (by omega : id > 0)]
    cases isOk with
    | true =>
      refine ⟨{ found with AcceptCount := addInt found.AcceptCount 1 }, ?_, ?_, ?_, ?_⟩
      · simp
      · simp
      · intro _
        exact ⟨rfl, rfl, fun h1 h2 => addInt_one _ h1 h2⟩
      · intro hc
        cases hc
    | false =>
      refine ⟨{ found with RejectCount := addInt found.RejectCount 1 }, ?_, ?_, ?_, ?_⟩
      · simp
      · simp
      · intro hc
        cases hc
      · intro _
        exact ⟨rfl, rfl, fun h1 h2 => addInt_one _ h1 h2⟩
  · intro hid hnone
    have hnot : ¬ id ≤ 0 := by omega
    unfold UpdateCorpusCounter
    simp only [if_neg hnot, call, hnone]
    exact ⟨trivial, trivial⟩

/-- The row 5 has been accepted twice and rejected once: an accepted answer makes
that three and one, a rejected answer two and two; the id 0 is refused with no
call on the engine, and the unknown id 6 gives "record not found". -/
theorem UpdateCorpusCounter_one_counter_witness :
    ((UpdateCorpusCounter Mem.engine 5 true
        { st := { corpus := [{ Id := 5, AcceptCount := 2, RejectCount := 1 }] }, log := [] }).2.st.corpus
      = [{ Id := 5, AcceptCount := 3, RejectCount := 1 }]) ∧
    ((UpdateCorpusCounter Mem.engine 5 false
        { st := { corpus := [{ Id := 5, AcceptCount := 2, RejectCount := 1 }] }, log := [] }).2.st.corpus
      = [{ Id := 5, AcceptCount := 2, RejectCount := 2 }]) ∧
    ((UpdateCorpusCounter Mem.engine 0 true
        { st := { corpus := [{ Id := 5, AcceptCount := 2, RejectCount := 1 }] }, log := [] }).2.log
      = []) ∧
    ((UpdateCorpusCounter Mem.engine 6 true
        { st := { corpus := [{ Id := 5, AcceptCount := 2, RejectCount := 1 }] }, log := [] }).1
      = some "record not found".toList) :=
  ⟨by decide, by decide,
   ((UpdateCorpusCounter_one_counter Mem.engine 0 true
      { st := { corpus := [{ Id := 5, AcceptCount := 2, RejectCount := 1 }] }, log := [] }).1
      (by decide)).2.1,
   ((UpdateCorpusCounter_one_counter Mem.engine 6 true
      { st := { corpus := [{ Id := 5, AcceptCount := 2, RejectCount := 1 }] }, log := [] }).2.2
      (by decide) rfl).1⟩

/-! ## C13: corpus rows and projects -/

/-- C13 fails on the code: project `"IT"` owns the row 1 with class `"greet"` and
question `"hi"`. Adding a corpus with the same class and question to project `"HR"`
(with `Id` 0) looks the row up by question and class only, finds the row of `"IT"`
and updates it: the row now belongs to `"HR"` with the new answer, and `"IT"` has
lost it. -/
theorem AddCorpusToDB_takes_other_project_row :
    (ChatBot.AddCorpusToDB Mem.engine
      { Project := "HR".toList, Class := "greet".toList, Question := "hi".toList,
        Answer := "hello from HR".toList, Qtype := 1 }
      { st := { corpus := [{ Id := 1, Project := "IT".toList, Class := "greet".toList,
                             Question := "hi".toList, Answer := "hello from IT".toList,
                             Qtype := 1 }] },
        log := [] }).2.log
      = [.engineGetCorpus { Class := "greet".toList, Question := "hi".toList },
         .engineUpdateCorpus
           { Id := 1, Project := "HR".toList, Class := "greet".toList, Question := "hi".toList,
             Answer := "hello from HR".toList, Qtype := 1 }
           { Id := 1 }] ∧
    (ChatBot.AddCorpusToDB Mem.engine
      { Project := "HR".toList, Class := "greet".toList, Question := "hi".toList,
        Answer := "hello from HR".toList, Qtype := 1 }
      { st := { corpus := [{ Id := 1, Project := "IT".toList, Class := "greet".toList,
                             Question := "hi".toList, Answer := "hello from IT".toList,
                             Qtype := 1 }] },
        log := [] }).2.st.corpus
      = [{ Id := 1, Project := "HR".toList, Class := "greet".toList, Question := "hi".toList,
           Answer := "hello from HR".toList, Qtype := 1 }] ∧
    (ChatBot.AddCorpusToDB Mem.engine
      { Project := "HR".toList, Class := "greet".toList, Question := "hi".toList,
        Answer := "hello from HR".toList, Qtype := 1 }
      { st := { corpus := [{ Id := 1, Project := "IT".toList, Class := "greet".toList,
                             Question := "hi".toList, Answer := "hello from IT".toList,
                             Qtype := 1 }] },
        log := [] }).1.1 = none := by
  decide

/-! ## C14: the `"message": "OK"` replies -/

/-- For a 200 reply the result of `Do` does not depend on the body: it is `nil` for
a pointer and the decoder's error for a `Message` by value. -/
theorem Do_200_any_body (body : Client.Message) (v : Client.Dest) :
    Client.Do (.ok (200, body)) v
      = match v with
        | .message _ => some "json: Unmarshal(non-pointer client.Message)".toList
        | .messagePointer => none := by
  cases v <;> rfl

/-- C14 fails on the code: for a 200 reply with the body
`{"message": "FAIL", "error": "boom"}` and `v` a pointer to a `Message`, `Do` returns
no error, since the type switch only knows a `Message` by value; and with `v` a
`Message` by value, `Do` returns the decoder's error even for the body
`{"message": "OK"}`. -/
theorem Do_ignores_message :
    Client.Do (.ok (200, { Message := "FAIL".toList, Error := "boom".toList })) .messagePointer
      = none ∧
    Client.Do (.ok (200, { Message := "OK".toList })) (.message {})
      = some "json: Unmarshal(non-pointer client.Message)".toList := by
  decide

/-! ## C15: a lookup without a row -/

/-- C15 fails on the code: the chatbot answers with the payload
`"hi?$$$$hello$$$$abc$$$$"`, whose id field is no number. `Atoi` gives 0, no row has
the id 0, `GetCorpusById` gives `nil` and the handler panics while building the
result: no response is sent. -/
theorem getResponse_bad_id_panics :
    Atoi "abc".toList = (0, false) ∧
    (GetCorpusById Mem.engine 0
      { st := { corpus := [{ Id := 1, Project := "IT".toList, Question := "hi".toList,
                             Answer := "hello".toList, Qtype := 1 }] },
        log := [] }).1 = none ∧
    (Server.getResponse Mem.engine
      { chatBots := [("IT".toList, Mem.chatbot "IT".toList
          [({ Content := "hi?$$$$hello$$$$abc$$$$".toList, Confidence := 1 } : Answer Nat)])],
        config := {} }
      { vars := [("project".toList, "IT".toList)], form := [("q".toList, "hi".toList)] }
      { st := { corpus := [{ Id := 1, Project := "IT".toList, Question := "hi".toList,
                             Answer := "hello".toList, Qtype := 1 }] },
        log := [] }).1 = none := by
  decide

/-! ## C16: listing the corpora of a project -/

/-- The filter that `listProjectCorpus` hands on for a request of the route
`/corpus/{project}`: start and limit are as the request gives them (limit 100 for
0 or none), and there is no condition on the project, the path variable `id` not
being one of the route. -/
theorem listProjectCorpus_filter {σ : Type} (eng : Engine σ) (project : Str)
    (form : List (Str × Str)) (w : World σ) :
    (Server.listProjectCorpus eng { vars := Server.projectRouteVars project, form := form } w).2.log
      = w.log ++ [.engineFindCorpusWhere
          (if (Atoi (Server.valueOf form "limit".toList)).1 = 0 then 100
           else (Atoi (Server.valueOf form "limit".toList)).1)
          (Atoi (Server.valueOf form "start".toList)).1 none none] := by
  have hv : Server.valueOf (Server.projectRouteVars project) "id".toList = [] := by
    simp [Server.valueOf, Server.projectRouteVars]
  simp only [Server.listProjectCorpus, ListCorpus, call, hv]
  rfl

/-- C16 fails on the code: the request `GET /corpus/IT?start=0&limit=10` is answered
with the corpora of all projects. The handler reads the path variable `id`, which
the route `/corpus/{project}` does not have, so the filter's project is empty and
`ListCorpus` puts no condition on the project. -/
theorem listProjectCorpus_lists_all_projects :
    (Server.listProjectCorpus Mem.engine
      { vars := Server.projectRouteVars "IT".toList,
        form := [("start".toList, "0".toList), ("limit".toList, "10".toList)] }
      { st := { corpus := [{ Id := 1, Project := "IT".toList, Question := "hi".toList },
                           { Id := 2, Project := "HR".toList, Question := "leave".toList }] },
        log := [] }).2.log
      = [.engineFindCorpusWhere 10 0 none none] ∧
    (Server.listProjectCorpus Mem.engine
      { vars := Server.projectRouteVars "IT".toList,
        form := [("start".toList, "0".toList), ("limit".toList, "10".toList)] }
      { st := { corpus := [{ Id := 1, Project := "IT".toList, Question := "hi".toList },
                           { Id := 2, Project := "HR".toList, Question := "leave".toList }] },
        log := [] }).1
      = (200, [{ Id := 1, Project := "IT".toList, Question := "hi".toList },
               { Id := 2, Project := "HR".toList, Question := "leave".toList }]) := by
  decide

end Chatbot
